import Mathlib

/-!
Shallow embedding of the gemini-image backend: `src/gemini.py` and
`src/make_dummy_image_asset.py`, together with spec-modelled stubs for the
collaborator modules that are imported by `gemini.py` but are not part of
`src/` (`save_chat`, `snapshot_manager`, `make_dummy_sound_asset`, `tsc`,
the prompt-template classes and the external LLM/JSON libraries).

Python strings are modelled as lists of characters (`PyStr`), the on-disk
project as a record of optional file contents plus association-list file
maps, and every external call (LLM, TypeScript compiler, image network,
background removal, sound copier) as an oracle supplied through an
environment record, so that the control flow of the endpoint
`process_code` and of `modify_code` can be studied for an arbitrary
sequence of external outcomes.
-/

/-- Python strings are modelled as lists of characters. -/
abbrev PyStr := List Char

/-- Conversion from Lean string literals to the model's strings. -/
def pys (s : String) : PyStr := s.toList

/-- The backtick character (code 96). -/
def btick : Char := Char.ofNat 96

/-- A triple backtick, the Markdown fence marker. -/
def fence3 : PyStr := [btick, btick, btick]

/-- The characters Python's `str.strip` removes (ASCII whitespace). -/
def pyIsSpace (c : Char) : Bool :=
  c = ' ' || c = '\t' || c = '\n' || c = '\r' || c = Char.ofNat 11 || c = Char.ofNat 12

/-- Python `str.lstrip()`. -/
def pyLstrip (s : PyStr) : PyStr := s.dropWhile pyIsSpace

/-- Python `str.rstrip()`. -/
def pyRstrip (s : PyStr) : PyStr := (s.reverse.dropWhile pyIsSpace).reverse

/-- Python `str.strip()`. -/
def pyStrip (s : PyStr) : PyStr := pyLstrip (pyRstrip s)

/-- Python `str.startswith(p)`. -/
def pyStartswith (p s : PyStr) : Bool := p.isPrefixOf s

/-- Python `str.endswith(p)`. -/
def pyEndswith (p s : PyStr) : Bool := p.isSuffixOf s

/-- Index of the first occurrence of `pat` in `s`, if any
(the `Option`-valued core of Python `str.find`). -/
def subFind (pat : PyStr) : PyStr → Option Nat
  | [] => if pat = [] then some 0 else none
  | c :: rest =>
    if pat.isPrefixOf (c :: rest) then some 0
    else (subFind pat rest).map (· + 1)

/-- Python `str.find(pat)`: first index, or `-1` when absent. -/
def pyFind (pat s : PyStr) : Int :=
  match subFind pat s with
  | some n => (n : Int)
  | none => -1

/-- Python `pat in s` substring test. -/
def pyContains (pat s : PyStr) : Bool := (subFind pat s).isSome

/-- Clamp a Python slice index (possibly negative) into `[0, n]`. -/
def sliceIdx (n : Nat) (i : Int) : Nat :=
  if i < 0 then ((n : Int) + i).toNat else min i.toNat n

/-- Python slice `s[a:b]` with possibly negative bounds. -/
def pySlice (s : PyStr) (a b : Int) : PyStr :=
  (s.take (sliceIdx s.length b)).drop (sliceIdx s.length a)

/-- Python `"\n".join(l)`. -/
def pyJoinNL (l : List PyStr) : PyStr := List.intercalate ['\n'] l

/-- Python `str.lower()` restricted to ASCII case mapping. -/
def pyLower (s : PyStr) : PyStr := s.map Char.toLower

/-- One-pass replacement of the two-character sequence backslash-n by a
newline: the specialisation of Python `str.replace` to the call
`replace(chr(92) ++ "n", newline)` made inside `remove_code_fences_safe`. -/
def replaceBsn : PyStr → PyStr
  | [] => []
  | [c] => [c]
  | c :: d :: rest =>
    if c = '\\' ∧ d = 'n' then '\n' :: replaceBsn rest
    else c :: replaceBsn (d :: rest)

/-- Whether the two-character sequence backslash-n occurs in the string. -/
def hasBsn : PyStr → Bool
  | [] => false
  | [_] => false
  | c :: d :: rest => (c = '\\' && d = 'n') || hasBsn (d :: rest)

/-- `remove_code_fences_safe` from `src/gemini.py` (lines 117-156): strips a
leading/trailing Markdown fence; inside a fenced block it first rewrites
literal backslash-n pairs to newlines, skips the language tag up to the
first newline, and finally removes a trailing triple backtick. -/
def remove_code_fences_safe (code_string : PyStr) : PyStr :=
  let stripped_string := pyStrip code_string
  let pair :=
    if pyStartswith fence3 stripped_string then
      let s2 := replaceBsn stripped_string
      match subFind ['\n'] s2 with
      | some i => (s2, i + 1)
      | none => (s2, 3)
    else (stripped_string, 0)
  let processed_string := pair.1.drop pair.2
  let final_string := pyRstrip processed_string
  let final_string2 :=
    if pyEndswith fence3 final_string then final_string.take (final_string.length - 3)
    else final_string
  pyStrip final_string2

/-- Delimiter `###CODE_START###`. -/
def mCODE_START : PyStr := pys "###CODE_START###"

/-- Delimiter `###CODE_END###`. -/
def mCODE_END : PyStr := pys "###CODE_END###"

/-- Delimiter `###DATA_START###`. -/
def mDATA_START : PyStr := pys "###DATA_START###"

/-- Delimiter `###DATA_END###`. -/
def mDATA_END : PyStr := pys "###DATA_END###"

/-- Delimiter `###ASSET_LIST_START###`. -/
def mASSET_START : PyStr := pys "###ASSET_LIST_START###"

/-- Delimiter `###ASSET_LIST_END###`. -/
def mASSET_END : PyStr := pys "###ASSET_LIST_END###"

/-- Delimiter `###DESCRIPTION_START###`. -/
def mDESC_START : PyStr := pys "###DESCRIPTION_START###"

/-- Delimiter `###DESCRIPTION_END###`. -/
def mDESC_END : PyStr := pys "###DESCRIPTION_END###"

/-- Result record of `parse_ai_code_response`. -/
structure AiCodeResponse where
  game_code : PyStr
  game_data : PyStr
  asset_list : PyStr
  description : PyStr
deriving DecidableEq, Repr

/-- `parse_ai_code_response` from `src/gemini.py` (lines 382-411): each field
is the stripped slice between `find(startMarker) + len(startMarker)` and
`find(endMarker)`, with Python's `-1` convention when a marker is absent. -/
def parse_ai_code_response (response_text : PyStr) : AiCodeResponse :=
  let code_start := pyFind mCODE_START response_text + (mCODE_START.length : Int)
  let code_end := pyFind mCODE_END response_text
  let data_start := pyFind mDATA_START response_text + (mDATA_START.length : Int)
  let data_end := pyFind mDATA_END response_text
  let asset_start := pyFind mASSET_START response_text + (mASSET_START.length : Int)
  let asset_end := pyFind mASSET_END response_text
  let desc_start := pyFind mDESC_START response_text + (mDESC_START.length : Int)
  let desc_end := pyFind mDESC_END response_text
  { game_code := pyStrip (pySlice response_text code_start code_end)
    game_data := pyStrip (pySlice response_text data_start data_end)
    asset_list := pyStrip (pySlice response_text asset_start asset_end)
    description := pyStrip (pySlice response_text desc_start desc_end) }

/-- `parse_ai_answer_response` from `src/gemini.py` (lines 437-449). -/
def parse_ai_answer_response (response_text : PyStr) : PyStr :=
  let answer_start := pyFind (pys "###ANSWER_START###") response_text + 18
  let answer_end := pyFind (pys "###ANSWER_END###") response_text
  pyStrip (pySlice response_text answer_start answer_end)

theorem remove_code_fences_safe_sanity :
    remove_code_fences_safe (pys "```ts\nlet x = 1\n```") = pys "let x = 1" := by decide

theorem parse_ai_code_response_sanity :
    (parse_ai_code_response (pys "###CODE_START###abc###CODE_END###")).game_code = pys "abc" := by
  decide

/-! ## A model of the external JSON library

`gemini.py` relies on Python's `json.loads` both to parse LLM answers and,
inside `validate_json`, to decide well-formedness.  The library is external
to the repository, so it is modelled here by one executable recursive-descent
validity checker producing a small JSON value type; `\u` escapes, duplicate
keys and the exact wording of error messages are simplified, which no claim
depends on.  Crucially, `validate_json` and the raising `json.loads` call in
`modify_code` are backed by the same function, as in Python. -/

/-- JSON values as produced by the modelled `json.loads`. -/
inductive Json where
  | null
  | bool (b : Bool)
  | num (n : Int)
  | str (s : PyStr)
  | arr (xs : List Json)
  | obj (kvs : List (PyStr × Json))

/-- JSON whitespace. -/
def jWs (c : Char) : Bool := c = ' ' || c = '\t' || c = '\n' || c = '\r'

/-- Parse the body of a JSON string after the opening quote; returns the
decoded characters and the rest of the input after the closing quote. -/
def parseJString : PyStr → Option (PyStr × PyStr)
  | [] => none
  | c :: rest =>
    if c = '"' then some ([], rest)
    else if c = '\\' then
      match rest with
      | [] => none
      | e :: rest2 =>
        let dec :=
          if e = 'n' then '\n' else if e = 't' then '\t'
          else if e = 'r' then '\r' else if e = 'b' then Char.ofNat 8
          else if e = 'f' then Char.ofNat 12 else e
        match parseJString rest2 with
        | some (s, r) => some (dec :: s, r)
        | none => none
    else
      match parseJString rest with
      | some (s, r) => some (c :: s, r)
      | none => none

/-- Decimal digits to a natural number. -/
def digitsToNat (ds : List Char) : Nat :=
  ds.foldl (fun acc c => acc * 10 + (c.toNat - 48)) 0

/-- Skip an optional fraction and exponent of a JSON number. -/
def skipFrac (s : PyStr) : PyStr :=
  let s1 :=
    match s with
    | c :: r => if c = '.' then r.dropWhile (fun d => d.isDigit) else s
    | [] => s
  match s1 with
  | c :: r =>
    if c = 'e' ∨ c = 'E' then
      let r1 :=
        match r with
        | d :: r2 => if d = '+' ∨ d = '-' then r2 else r
        | [] => r
      r1.dropWhile (fun d => d.isDigit)
    else s1
  | [] => s1

/-- Parse a JSON number; the value keeps only the integer part. -/
def parseJNum (s : PyStr) : Option (Int × PyStr) :=
  let pair :=
    match s with
    | c :: r => if c = '-' then (true, r) else (false, s)
    | [] => (false, s)
  let ds := pair.2.takeWhile (fun d => d.isDigit)
  let s2 := pair.2.dropWhile (fun d => d.isDigit)
  if ds = [] then none
  else
    let v : Int := Int.ofNat (digitsToNat ds)
    some (if pair.1 then -v else v, skipFrac s2)

mutual

/-- Fuel-bounded recursive-descent JSON value parser. -/
def parseJ : Nat → PyStr → Except PyStr (Json × PyStr)
  | 0, _ => .error (pys "recursion limit")
  | fuel + 1, s =>
    match s.dropWhile jWs with
    | [] => .error (pys "Expecting value")
    | c :: rest =>
      if c = '"' then
        match parseJString rest with
        | some (t, r) => .ok (.str t, r)
        | none => .error (pys "Unterminated string")
      else if c = Char.ofNat 123 then
        match rest.dropWhile jWs with
        | d :: r2 =>
          if d = Char.ofNat 125 then .ok (.obj [], r2)
          else parseJObjItems fuel (d :: r2)
        | [] => .error (pys "Expecting property name")
      else if c = '[' then
        match rest.dropWhile jWs with
        | d :: r2 =>
          if d = ']' then .ok (.arr [], r2)
          else
            match parseJArrItems fuel (d :: r2) with
            | .ok (vs, r3) => .ok (.arr vs, r3)
            | .error e => .error e
        | [] => .error (pys "Expecting value")
      else if pyStartswith (pys "null") (c :: rest) then .ok (.null, rest.drop 3)
      else if pyStartswith (pys "true") (c :: rest) then .ok (.bool true, rest.drop 3)
      else if pyStartswith (pys "false") (c :: rest) then .ok (.bool false, rest.drop 4)
      else if c.isDigit ∨ c = '-' then
        match parseJNum (c :: rest) with
        | some (n, r) => .ok (.num n, r)
        | none => .error (pys "Expecting value")
      else .error (pys "Expecting value")

/-- Parse the items of a non-empty JSON array (input starts at a value). -/
def parseJArrItems : Nat → PyStr → Except PyStr (List Json × PyStr)
  | 0, _ => .error (pys "recursion limit")
  | fuel + 1, s =>
    match parseJ fuel s with
    | .error e => .error e
    | .ok (v, r1) =>
      match r1.dropWhile jWs with
      | c :: r2 =>
        if c = ',' then
          match parseJArrItems fuel r2 with
          | .ok (vs, r3) => .ok (v :: vs, r3)
          | .error e => .error e
        else if c = ']' then .ok ([v], r2)
        else .error (pys "Expecting delimiter")
      | [] => .error (pys "Expecting delimiter")

/-- Parse the members of a non-empty JSON object (input starts at a key). -/
def parseJObjItems : Nat → PyStr → Except PyStr (Json × PyStr)
  | 0, _ => .error (pys "recursion limit")
  | fuel + 1, s =>
    match s.dropWhile jWs with
    | c :: rest =>
      if c = '"' then
        match parseJString rest with
        | some (k, r1) =>
          match r1.dropWhile jWs with
          | d :: r2 =>
            if d = ':' then
              match parseJ fuel r2 with
              | .error e => .error e
              | .ok (v, r3) =>
                match r3.dropWhile jWs with
                | e2 :: r4 =>
                  if e2 = ',' then
                    match parseJObjItems fuel r4 with
                    | .ok (.obj kvs, r5) => .ok (.obj ((k, v) :: kvs), r5)
                    | .ok (j, r5) => .ok (j, r5)
                    | .error e => .error e
                  else if e2 = Char.ofNat 125 then .ok (.obj [(k, v)], r4)
                  else .error (pys "Expecting delimiter")
                | [] => .error (pys "Expecting delimiter")
            else .error (pys "Expecting colon")
          | [] => .error (pys "Expecting colon")
        | none => .error (pys "Unterminated string")
      else .error (pys "Expecting property name")
    | [] => .error (pys "Expecting property name")

end

/-- Model of Python `json.loads`: parses the whole input or fails with a
diagnostic message (the message wording abstracts CPython's). -/
def json_loads (s : PyStr) : Except PyStr Json :=
  match parseJ (2 * s.length + 2) s with
  | .error e => .error e
  | .ok (v, rest) =>
    if rest.dropWhile jWs = [] then .ok v else .error (pys "Extra data")

/-- `validate_json` from `src/gemini.py` (lines 456-461): the empty string on
success, the decoding error message otherwise. -/
def validate_json (json_str : PyStr) : PyStr :=
  match json_loads json_str with
  | .ok _ => []
  | .error e => e

/-- First binding of a key in a modelled JSON object. -/
def assocLookup (k : PyStr) : List (PyStr × Json) → Option Json
  | [] => none
  | (k2, v) :: rest => if k2 = k then some v else assocLookup k rest

/-- Python `d.get(k, dflt)`: raises (`.error`) when the receiver is not a
dict, as the attribute lookup does in Python. -/
def pyDictGetD (j : Json) (k : PyStr) (dflt : Json) : Except PyStr Json :=
  match j with
  | .obj kvs => .ok ((assocLookup k kvs).getD dflt)
  | _ => .error (pys "AttributeError: get")

/-- Python `d[k]` on a parsed JSON value: `KeyError`/`TypeError` as `.error`. -/
def pyDictGetKey (j : Json) (k : PyStr) : Except PyStr Json :=
  match j with
  | .obj kvs =>
    match assocLookup k kvs with
    | some v => .ok v
    | none => .error (pys "KeyError")
  | _ => .error (pys "TypeError: not a dict")

/-- Elements of a JSON array that must all be strings (as consumed by
Python `"\n".join`). -/
def jsonStrItems : List Json → Except PyStr (List PyStr)
  | [] => .ok []
  | .str s :: rest =>
    match jsonStrItems rest with
    | .ok r => .ok (s :: r)
    | .error e => .error e
  | _ :: _ => .error (pys "TypeError: join")

/-- A JSON value consumed by Python's `"\n".join` and `len` (gemini.py
lines 661-692): a list must contain only strings (`join` raises `TypeError`
otherwise); a string is iterated character by character and a dict over its
keys, so both proceed; numbers, booleans and `null` are not iterable and
raise.  The length of the resulting list equals Python's `len` of the
original value in every non-raising case. -/
def asStrList : Json → Except PyStr (List PyStr)
  | .arr xs => jsonStrItems xs
  | .str s => .ok (s.map (fun c => [c]))
  | .obj kvs => .ok (kvs.map (fun kv => kv.1))
  | _ => .error (pys "TypeError: not a list")

/-- A JSON value used where Python expects a string, with a default. -/
def jsonAsStrD (j : Json) (dflt : PyStr) : PyStr :=
  match j with
  | .str s => s
  | _ => dflt

/-- A JSON value used where Python expects an integer, with a default. -/
def jsonAsIntD (j : Json) (dflt : Int) : Int :=
  match j with
  | .num n => n
  | _ => dflt

theorem json_loads_sanity :
    (json_loads (pys "\x7b\"a\": [1, 2], \"b\": \"x\"\x7d")).isOk = true := by decide

theorem validate_json_sanity_invalid : validate_json (pys "\x7b") ≠ [] := by decide

theorem validate_json_sanity_valid : validate_json (pys " [true, null, false] ") = [] := by decide

/-! ## File-system and path model -/

/-- A file system fragment: an association list from paths to contents;
the first binding for a path is its current content. -/
abbrev FS := List (PyStr × PyStr)

/-- Content of a path, if the file exists. -/
def fsLookup (p : PyStr) : FS → Option PyStr
  | [] => none
  | (q, v) :: rest => if q = p then some v else fsLookup p rest

/-- `os.path.exists` over the modelled file system. -/
def fsMem (p : PyStr) (fs : FS) : Bool := (fsLookup p fs).isSome

/-- Write (create or overwrite) a file. -/
def fsWrite (p v : PyStr) (fs : FS) : FS := (p, v) :: fs

/-- `os.path.basename` for forward-slash paths. -/
def basename (s : PyStr) : PyStr := (s.reverse.takeWhile (fun c => c ≠ '/')).reverse

/-- `os.path.dirname` for forward-slash paths. -/
def dirname (s : PyStr) : PyStr :=
  let b := basename s
  let n := s.length - b.length
  if n = 0 then [] else s.take (n - 1)

/-- `os.path.join` for forward-slash paths (two arguments). -/
def pathJoin (a b : PyStr) : PyStr :=
  if a = [] then b
  else if b.head? = some '/' then b
  else if a.getLast? = some '/' then a ++ b
  else a ++ '/' :: b

/-! ## `src/make_dummy_image_asset.py` -/

/-- Per-run oracle for the external effects of the image-asset module:
`aiAttempts i` lists the outcomes of the up-to-three Pollinations network
attempts for the `i`-th processed entry (`none` = the request raised, or an
earlier step inside that attempt's `try` raised, e.g. `max(512, width)` on a
non-numeric width; `some bytes` = the response body); `rembg i` is the
background-removal result for that entry (`none` = `remove` raised, so the
original bytes are kept); `dummy i` is the outcome of the
`create_dummy_image` call for that entry: `some content` when its internal
`try` reaches `img.save` and writes, `none` when a PIL failure (bad font,
non-string text, non-integer size, failed save) is swallowed by its own
`except` (make_dummy_image_asset.py lines 148-149) and nothing is
written. -/
structure ImgEnv where
  aiAttempts : Nat → List (Option PyStr)
  rembgAvailable : Bool
  rembg : Nat → PyStr → Option PyStr
  dummy : Nat → Option PyStr

/-- The retry loop of `check_and_create_images_with_text` (lines 70-91):
the first of at most three attempts that returns non-empty bytes wins;
otherwise the AI path fails. -/
def aiTry (attempts : List (Option PyStr)) : Option PyStr :=
  ((attempts.take 3).filterMap id).find? (fun b => b ≠ [])

/-- The `is_background` test of line 58. -/
def isBackgroundName (name : PyStr) : Bool :=
  pyContains (pys "background") (pyLower name) || pyContains (pys "bg") (pyLower name)

/-- The generation work done for an entry whose target file is absent
(lines 50-113), given the save path and the raw JSON value of the entry's
`name`.  A string name follows the `try` body: the AI retry loop, then on
success the optional background removal and the write at line 105; if every
AI attempt fails, the `raise` at line 94 lands in the `except` and
`create_dummy_image` runs.  A non-string name raises at `name.lower()`
(line 58) inside the `try`, before any AI attempt, so the `except` goes
straight to `create_dummy_image`.  Either way the dummy call writes its
content only when its own internal `try` succeeds (`env.dummy idx = some`);
a swallowed PIL failure leaves the file system untouched.  The returned
triple is the file system, the grown ghost generation list, and the next
entry index — this stage raises nothing. -/
def imageGenStep (env : ImgEnv) (final_save_path : PyStr) (nameJ : Json)
    (fs : FS) (gens : List Nat) (idx : Nat) : FS × List Nat × Nat :=
  match nameJ with
  | .str name =>
    match aiTry (env.aiAttempts idx) with
    | some bytes =>
      let bytes2 :=
        if ¬ isBackgroundName name ∧ env.rembgAvailable then
          (env.rembg idx bytes).getD bytes
        else bytes
      (fsWrite final_save_path bytes2 fs, gens ++ [idx], idx + 1)
    | none =>
      match env.dummy idx with
      | some d => (fsWrite final_save_path d fs, gens ++ [idx], idx + 1)
      | none => (fs, gens ++ [idx], idx + 1)
  | _ =>
    match env.dummy idx with
    | some d => (fsWrite final_save_path d fs, gens ++ [idx], idx + 1)
    | none => (fs, gens ++ [idx], idx + 1)

/-- One iteration of the `for item in images_to_process` loop (lines 36-113).
The accumulator carries the file system, the ghost list of entry indices for
which image generation (AI or dummy) was attempted, and the index of the
current entry.  A non-dict entry raises `AttributeError` at `.get` (line
37), and a dict entry with a non-string `path` value raises `TypeError` at
`os.path.basename` (line 42); both happen before the existence check and
outside the `try`, so they abort the loop with nothing written for this
entry.  The existence check at line 46 sees the file map, plus the target
directory itself: an empty `file_name` (missing `path`, or one ending in a
separator) makes `os.path.join` return the directory path, which exists
after the `makedirs` of lines 30-31, so the entry is skipped. -/
def imageItemStep (env : ImgEnv) (target_directory : PyStr) (acc : FS × List Nat × Nat)
    (item : Json) : Except PyStr (FS × List Nat × Nat) :=
  match item with
  | .obj kvs =>
    match (assocLookup (pys "path") kvs).getD (.str []) with
    | .str file_path_full =>
      let file_name := basename file_path_full
      let final_save_path := pathJoin target_directory file_name
      if file_name.isEmpty || fsMem final_save_path acc.1 then
        .ok (acc.1, acc.2.1, acc.2.2 + 1)
      else
        .ok (imageGenStep env final_save_path
          ((assocLookup (pys "name") kvs).getD (.str (pys "unknown")))
          acc.1 acc.2.1 acc.2.2)
    | _ => .error (pys "TypeError: str expected")
  | _ => .error (pys "AttributeError: get")

/-- The item loop of `check_and_create_images_with_text`; on an exception the
file writes performed so far persist, as in Python. -/
def imagesFold (env : ImgEnv) (target_directory : PyStr) :
    List Json → FS → List Nat → Nat → (Except PyStr Unit) × FS × List Nat
  | [], fs, gens, _ => (.ok (), fs, gens)
  | item :: rest, fs, gens, idx =>
    match imageItemStep env target_directory (fs, gens, idx) item with
    | .error e => (.error e, fs, gens)
    | .ok (fs2, gens2, idx2) => imagesFold env target_directory rest fs2 gens2 idx2

/-- Lines 22-28: `data.get('assets', {}).get('images', [])` followed by the
truthiness check `if images_to_process:` and, when truthy, the subscript and
`.get` at line 25.  A non-dict `data` or truthy non-dict `assets` raises at
`.get`; a falsy `images` value of any type (empty list, empty string, empty
dict, `0`, `false`, `null`) makes the function return cleanly with no
entries processed; a truthy non-list `images` raises at line 25 — `[0]` on a
number or boolean (`TypeError`), on a non-empty dict (`KeyError`, its keys
being strings), or `.get` on the character produced from a non-empty string
(`AttributeError`).  `.ok l` means the per-item loop runs on `l`. -/
def imagesOfData : Json → Except PyStr (List Json)
  | .obj dataKvs =>
    match (assocLookup (pys "assets") dataKvs).getD (.obj []) with
    | .obj assetKvs =>
      match (assocLookup (pys "images") assetKvs).getD (.arr []) with
      | .arr items => .ok items
      | .null => .ok []
      | .bool b => if b then .error (pys "TypeError: not subscriptable") else .ok []
      | .num n => if n = 0 then .ok [] else .error (pys "TypeError: not subscriptable")
      | .str s => if s = [] then .ok [] else .error (pys "AttributeError: get")
      | .obj kvs => if kvs.isEmpty then .ok [] else .error (pys "KeyError")
    | _ => .error (pys "AttributeError: get")
  | _ => .error (pys "AttributeError: get")

/-- `check_and_create_images_with_text` from `src/make_dummy_image_asset.py`
(lines 16-115): extracts `data['assets']['images']` with Python `get`
defaults and the truthiness check, derives the target directory from the
first entry's path — a non-dict first entry raises `AttributeError` at line
25 and a non-string first `path` value raises `TypeError` at
`os.path.dirname` (line 26), both before the directory creation and the
loop — then processes each entry; an entry whose target file exists (or
whose target is the directory itself) is skipped, and each remaining entry
is handed to the AI/dummy generation stage.  The result carries the Python
exception (if any), the resulting file system, and the ghost list of entry
indices for which generation was attempted. -/
def check_and_create_images_with_text (data : Json) (base_directory : PyStr)
    (env : ImgEnv) (fs : FS) : (Except PyStr Unit) × FS × List Nat :=
  match imagesOfData data with
  | .error e => (.error e, fs, [])
  | .ok [] => (.ok (), fs, [])
  | .ok (first :: rest) =>
    match first with
    | .obj firstKvs =>
      match (assocLookup (pys "path") firstKvs).getD (.str []) with
      | .str first_path =>
        let target_directory := pathJoin base_directory (dirname first_path)
        imagesFold env target_directory (first :: rest) fs [] 0
      | _ => (.error (pys "TypeError: str expected"), fs, [])
    | _ => (.error (pys "AttributeError: get"), fs, [])

/-! ## Spec-modelled collaborator state: chat log and version store -/

/-- Chat speakers. -/
inductive Speaker where
  | user
  | bot
deriving DecidableEq

/-- A version record of the history log.
Modelled from the spec: `snapshot_manager.py` is not under `src/`;
spec §4.3 describes the log as append-only records
`(name, parent, summary)` plus a current-version pointer. -/
structure VersionRec where
  name : PyStr
  parent : Option PyStr
  summary : PyStr
deriving DecidableEq

/-- The version store: append-only log plus current pointer.
Modelled from the spec (§4.3). -/
structure VersionStore where
  log : List VersionRec
  current : Option PyStr
deriving DecidableEq

/-- Modelled from the spec: `create_version` appends a fresh, never-reused
name and advances the current pointer (spec §4.3; the name-derivation
scheme is opaque to the callers in `gemini.py`). -/
def create_version (store : VersionStore) (parent_name : Option PyStr)
    (summary : PyStr) : VersionStore :=
  let name := 'v' :: Nat.toDigits 10 store.log.length
  { log := store.log ++ [⟨name, parent_name, summary⟩], current := some name }

/-- The record returned by `find_current_version_from_file`. -/
structure CurrentInfo where
  version : Option PyStr
  parent : Option PyStr
deriving DecidableEq

/-- Modelled from the spec: `find_current_version_from_file` reads the log
and returns the record named by the current pointer, or an empty record
when there is no history yet (spec §4.3). -/
def find_current_version_from_file (store : VersionStore) : CurrentInfo :=
  match store.current with
  | none => ⟨none, none⟩
  | some n =>
    match store.log.find? (fun r => decide (r.name = n)) with
    | some r => ⟨some r.name, r.parent⟩
    | none => ⟨none, none⟩

/-- The durable state of one project (`game_name` directory): the two
generated files, the chat transcript, the version store, and the asset and
sound file maps. -/
structure ProjectState where
  code : Option PyStr
  data : Option PyStr
  chat : List (Speaker × PyStr)
  store : VersionStore
  assets : FS
  sounds : FS
deriving DecidableEq

/-- Modelled from the spec: `save_chat` appends one `(speaker, text)` turn
to the project's transcript (`save_chat.py` is not under `src/`; spec
§4.5 specifies an append-only log). -/
def save_chat (proj : ProjectState) (speaker : Speaker) (text : PyStr) : ProjectState :=
  { proj with chat := proj.chat ++ [(speaker, text)] }

/-- Modelled from the spec: `create_project_structure` idempotently creates
the directory skeleton and is never destructive (spec §4.4); the model
tracks only files, on which it is the identity. -/
def create_project_structure (proj : ProjectState) : ProjectState := proj

/-- The project-directory argument handed to the asset materializer; the
model keys each project's file maps directly, so a fixed token suffices. -/
def GAME_DIRpath : PyStr := pys "game"

/-- The empty, never-touched project. -/
def emptyProj : ProjectState := ⟨none, none, [], ⟨[], none⟩, [], []⟩

/-! ## The environment of external outcomes for one request -/

/-- Oracle outcomes of every external call made while handling one request:
the classification, Q&A and generation LLM calls (indexed by attempt,
`.error` meaning the call raised), the TypeScript compiler output per
generation attempt (`check_typescript_compile_error`, `tsc.py` not under
`src/`: empty = success), the image-asset oracle per generation attempt,
and the sound copier (`make_dummy_sound_asset.py` not under `src/`,
modelled from the spec as an arbitrary transformation of the project's
sound-file map driven by the parsed data). -/
structure Env where
  classifyLLM : Nat → Except PyStr PyStr
  qnaLLM : Nat → Except PyStr PyStr
  genLLM : Nat → Except PyStr PyStr
  compiler : Nat → PyStr
  img : Nat → ImgEnv
  soundCopy : Json → FS → FS

/-- `MAX_ATTEMPTS` from `src/gemini.py` line 622. -/
def MAX_ATTEMPTS : Nat := 5

/-- The exception formatting used by every `except` block of
`process_code`. -/
def errFmt (e : PyStr) : PyStr := pys "❌ 에러 발생: " ++ e

/-! ## `modify_code` (src/gemini.py lines 465-586) -/

/-- The three response fields of one generation attempt, after fence
stripping (lines 505-509). -/
def modify_code_parsed (text : PyStr) : PyStr × PyStr × PyStr :=
  let responseData := parse_ai_code_response text
  (remove_code_fences_safe responseData.game_code,
   remove_code_fences_safe responseData.game_data,
   remove_code_fences_safe responseData.description)

/-- The error component of the image materializer, computed from the data
alone; `check_images_fst_eq` below proves it equal to the first component
of `check_and_create_images_with_text`, whose file effects and oracle it
does not depend on. -/
def imagesErrItems : List Json → Except PyStr Unit
  | [] => .ok ()
  | .obj kvs :: rest =>
    match (assocLookup (pys "path") kvs).getD (.str []) with
    | .str _ => imagesErrItems rest
    | _ => .error (pys "TypeError: str expected")
  | _ :: _ => .error (pys "AttributeError: get")

/-- The exception raised by `check_and_create_images_with_text`, if any. -/
def imagesErr (data : Json) : Except PyStr Unit :=
  match imagesOfData data with
  | .error e => .error e
  | .ok [] => .ok ()
  | .ok (first :: rest) =>
    match first with
    | .obj _ => imagesErrItems (first :: rest)
    | _ => .error (pys "AttributeError: get")

/-- The `(game_code, game_data, description, error)` quadruple returned by
one `modify_code` call, or the exception it raises; note it is a function
of the LLM outcome and the compiler output alone.  Python computes
`error = validate_json(game_data)` (line 554) and then immediately calls
the unguarded `json.loads(game_data)` (line 556), so on invalid data
`modify_code` raises before the validation message can be returned; on the
reachable paths the validation component of the final error (lines
581-584) is therefore always empty. -/
def modifyResult (llm : Except PyStr PyStr) (compileOut : PyStr) :
    Except PyStr (PyStr × PyStr × PyStr × PyStr) :=
  match llm with
  | .error e => .error e
  | .ok text =>
    let gcd := modify_code_parsed text
    let game_code := gcd.1
    let game_data := gcd.2.1
    let description := gcd.2.2
    let modify_check :=
      if game_code ≠ [] then pys "< game.ts : 수정 O >   " else pys "< game.ts : 수정 X >   "
    if game_data ≠ [] then
      match json_loads game_data with
      | .error e => .error e
      | .ok json_data =>
        match imagesErr json_data with
        | .error e => .error e
        | .ok _ =>
          let modify_check2 := modify_check ++ pys "< data.json : 수정 O >\n"
          let description2 := modify_check2 ++ description
          let error := validate_json game_data
          let error2 := if error = [] then compileOut else error ++ '\n' :: compileOut
          .ok (game_code, game_data, description2, error2)
    else
      let modify_check2 := modify_check ++ pys "< data.json : 수정 X >\n"
      let description2 := modify_check2 ++ description
      .ok (game_code, game_data, description2, compileOut)

/-- The state effects of the data block of `modify_code` (lines 552-567),
entered when `game_data` is non-empty: on invalid data, the raise at the
unguarded `json.loads` (line 556) precedes the write at line 566, so the
data file is untouched; on valid data the asset materializer runs (its
partial writes persisting even if it raises), then the sound copier, then
the data file is written. -/
def modifyEffectData (game_data : PyStr) (proj1 : ProjectState) (ienv : ImgEnv)
    (soundCopy : Json → FS → FS) : ProjectState :=
  match json_loads game_data with
  | .error _ => proj1
  | .ok json_data =>
    let imgr := check_and_create_images_with_text json_data GAME_DIRpath ienv proj1.assets
    let proj2 := { proj1 with assets := imgr.2.1 }
    match imgr.1 with
    | .error _ => proj2
    | .ok _ =>
      let proj3 := { proj2 with sounds := soundCopy json_data proj2.sounds }
      { proj3 with data := some game_data }

/-- The state effects of one `modify_code` call: the project skeleton is
ensured, non-empty code is written (line 543) before the data block is
handled, and the effects performed before an exception persist. -/
def modifyEffect (llm : Except PyStr PyStr) (proj : ProjectState) (ienv : ImgEnv)
    (soundCopy : Json → FS → FS) : ProjectState :=
  match llm with
  | .error _ => create_project_structure proj
  | .ok text =>
    let gcd := modify_code_parsed text
    let game_code := gcd.1
    let game_data := gcd.2.1
    let proj0 := create_project_structure proj
    let proj1 := if game_code ≠ [] then { proj0 with code := some game_code } else proj0
    if game_data ≠ [] then modifyEffectData game_data proj1 ienv soundCopy
    else proj1

/-- `modify_code` from `src/gemini.py` (lines 465-586): one generation
attempt.  It reads the current files only to build the prompt, which the
LLM oracle already accounts for; the returned quadruple (or raised
exception) and the state effects are given by `modifyResult` and
`modifyEffect`, which replicate the source's single control flow — the
split lets the returned value be recognised as independent of the project
state and of the request/question texts. -/
def modify_code (request question : PyStr) (proj : ProjectState)
    (llm : Except PyStr PyStr) (compileOut : PyStr) (ienv : ImgEnv)
    (soundCopy : Json → FS → FS) :
    (Except PyStr (PyStr × PyStr × PyStr × PyStr)) × ProjectState :=
  (modifyResult llm compileOut, modifyEffect llm proj ienv soundCopy)

/-- The result component of generation attempt `i` of `env`; it does not
depend on the request text, the question, or the project state. -/
def iterResult (env : Env) (i : Nat) : Except PyStr (PyStr × PyStr × PyStr × PyStr) :=
  modifyResult (env.genLLM i) (env.compiler i)

/-- An image oracle with no successful network attempts and an
always-succeeding dummy fallback. -/
def imgEnv0 : ImgEnv := ⟨fun _ => [], false, fun _ b => some b, fun _ => some (pys "DUMMY")⟩

/-! ## The generation-retry loop and the `process-code` endpoint
(src/gemini.py lines 624-824) -/

/-- The loop state of the generation-retry engine, including the ghost
`trace` of the `(message, q_msg)` inputs handed to `modify_code` at each
iteration. -/
structure GenSt where
  message : PyStr
  q_msg : PyStr
  game_code : PyStr
  game_data : PyStr
  description_total : PyStr
  success : Bool
  fail_message : PyStr
  proj : ProjectState
  trace : List (PyStr × PyStr)
deriving DecidableEq

/-- The delimited compile-error block appended to the running description
(line 788). -/
def errBlock (e : PyStr) : PyStr :=
  pys "\n\n\n\n\n========Compile Error========\n" ++ e
    ++ pys "\n=============================\n\n\n\n\n"

/-- One iteration of the retry loop (lines 772-793): a normal return
updates the produced triple and either succeeds (empty error) or feeds the
error into the next `message`; an exception only sets `fail_message`.  In
both non-success cases `q_msg` is cleared (line 793). -/
def genStep (env : Env) (i : Nat) (st : GenSt) : GenSt :=
  let r := modify_code st.message st.q_msg st.proj (env.genLLM i) (env.compiler i)
    (env.img i) env.soundCopy
  let st1 := { st with proj := r.2, trace := st.trace ++ [(st.message, st.q_msg)] }
  match r.1 with
  | .ok (game_code, game_data, description, error) =>
    let st2 := { st1 with
      game_code := game_code
      game_data := game_data
      description_total := st1.description_total ++ description }
    if error = [] then { st2 with success := true }
    else { st2 with
      message := error
      description_total := st2.description_total ++ errBlock error
      q_msg := [] }
  | .error e => { st1 with fail_message := errFmt e, q_msg := [] }

/-- `for i in range(MAX_ATTEMPTS)` with `break` on success. -/
def genLoop (env : Env) : List Nat → GenSt → GenSt
  | [], st => st
  | i :: rest, st => if st.success then st else genLoop env rest (genStep env i st)

/-- The JSON body returned by `process_code`. -/
structure Response where
  status : PyStr
  code : PyStr
  data : PyStr
  reply : PyStr
deriving DecidableEq

/-- Result of the modification branch: response, project state, and the
ghost trace of generator inputs. -/
structure MBOut where
  resp : Response
  proj : ProjectState
  trace : List (PyStr × PyStr)
deriving DecidableEq

/-- The modification branch of `process_code` (lines 753-824): records the
user turn (echoing the joined modification requests), runs the retry loop,
and on success creates a version — rooted for a first creation, childed to
the current version otherwise — only when at least one of code/data is
non-empty; the bot turn and the response carry the accumulated description
on success and `devide_result ++ fail_message ++ ... ` on failure. -/
def modificationBranch (user_requests user_question devide_result ia : PyStr)
    (env : Env) (proj : ProjectState) : MBOut :=
  let is_first_created := proj.code.isNone
  let proj1 := save_chat proj Speaker.user user_requests
  let st0 : GenSt := ⟨user_requests, user_question, [], [], [], false, [], proj1, []⟩
  let st := genLoop env (List.range MAX_ATTEMPTS) st0
  if st.success then
    let proj2 :=
      if st.game_code ≠ [] ∨ st.game_data ≠ [] then
        if is_first_created then
          { st.proj with store := create_version st.proj.store none user_requests }
        else
          let cur := (find_current_version_from_file st.proj.store).version
          { st.proj with store := create_version st.proj.store cur user_requests }
      else st.proj
    let total := devide_result ++ st.description_total ++ pys "\n\n" ++ ia
    let proj3 := save_chat proj2 Speaker.bot total
    ⟨⟨pys "success", st.game_code, st.game_data, total⟩, proj3, st.trace⟩
  else
    let fm := devide_result ++ st.fail_message ++ pys "\n\n" ++ ia
    let proj2 := save_chat st.proj Speaker.bot fm
    ⟨⟨pys "fail", st.game_code, st.game_data, fm⟩, proj2, st.trace⟩

/-- Outcome of one bounded LLM retry loop (classification, lines 632-646,
and the Q&A loop, lines 717-733): the first successful response text if
any, the formatted message of the last exception, and the number of calls
made. -/
structure TryOut where
  res : Option PyStr
  fail_message : PyStr
  calls : Nat
deriving DecidableEq

/-- `for i in range(MAX_ATTEMPTS): try ... break except ...` over an LLM
oracle. -/
def tryLoop (f : Nat → Except PyStr PyStr) : List Nat → PyStr → TryOut
  | [], fm => ⟨none, fm, 0⟩
  | i :: rest, fm =>
    match f i with
    | .ok t => ⟨some t, fm, 1⟩
    | .error e =>
      let out := tryLoop f rest (errFmt e)
      ⟨out.res, out.fail_message, out.calls + 1⟩

/-- The classification result extracted from the first LLM answer
(lines 657-660). -/
structure Devide where
  Modification_Requests : List PyStr
  Questions : List PyStr
  Inappropriate : List PyStr
deriving DecidableEq

/-- Lines 657-676: `json.loads(remove_code_fences_safe(response.text))`
followed by the three key accesses (658-660), then the uses that can raise,
in source order: `len(Inappropriate)` and its iteration (661-667), then
`"\n".join(Modification_Requests)` (675), then `"\n".join(Questions)`
(676).  Every failure is an uncaught Python exception (`.error`). -/
def parseDevide (t : PyStr) : Except PyStr Devide := do
  let j ← json_loads (remove_code_fences_safe t)
  let mj ← pyDictGetKey j (pys "Modification_Requests")
  let qj ← pyDictGetKey j (pys "Questions")
  let ij ← pyDictGetKey j (pys "Inappropriate")
  let ias ← asStrList ij
  let ms ← asStrList mj
  let qs ← asStrList qj
  return ⟨ms, qs, ias⟩

/-- Lines 662-673: the rejection text built from the disallowed items. -/
def inappropriateAnswer (l : List PyStr) : PyStr :=
  if l.length > 0 then
    pys "\n\n" ++
      pyJoinNL (l.map (fun item =>
        pys "죄송합니다 \x27" ++ item ++ pys "\x27는 도와드릴 수 없습니다."))
  else []

/-- Line 688: the classification summary prefixed to every reply. -/
def devideResult (user_requests user_question ia : PyStr) : PyStr :=
  pys "요청:\n" ++ user_requests ++ pys "\n질문:\n" ++ user_question
    ++ pys "\n부적절:\n" ++ ia ++ pys "\n"

/-- Full outcome of the `process_code` endpoint: the response (`.error`
when a Python exception escapes the handler), the project state (effects
persist even when an exception escapes), and ghost call counters and the
generator-input trace. -/
structure PCOut where
  result : Except PyStr Response
  proj : ProjectState
  classifyCalls : Nat
  qnaCalls : Nat
  genTrace : List (PyStr × PyStr)

/-- The read-only Q&A branch of `process_code` (lines 701-752): loads the
current files as prompt context (covered by the oracle), retries the LLM
call up to `MAX_ATTEMPTS` times, and appends one bot turn carrying either
the parsed answer or the formatted last exception. -/
def qnaBranch (dr ia : PyStr) (env : Env) (proj1 : ProjectState) (ccalls : Nat) : PCOut :=
  let qa := tryLoop env.qnaLLM (List.range MAX_ATTEMPTS) []
  match qa.res with
  | none =>
    let fm := dr ++ qa.fail_message ++ pys "\n\n" ++ ia
    let proj2 := save_chat proj1 Speaker.bot fm
    ⟨.ok ⟨pys "fail", [], [], fm⟩, proj2, ccalls, qa.calls, []⟩
  | some atext =>
    let answer := parse_ai_answer_response atext
    let answer2 := dr ++ answer ++ pys "\n\n" ++ ia
    let proj2 := save_chat proj1 Speaker.bot answer2
    ⟨.ok ⟨pys "success", [], [], answer2⟩, proj2, ccalls, qa.calls, []⟩

/-- The `process_code` endpoint (lines 624-824): classification loop,
structured-decision parse (uncaught on failure), then one of the four
branches: classification exhausted, nothing actionable, Q&A, or the
modification branch. -/
def process_code (message : PyStr) (env : Env) (proj : ProjectState) : PCOut :=
  let cl := tryLoop env.classifyLLM (List.range MAX_ATTEMPTS) []
  match cl.res with
  | none =>
    let proj2 := save_chat proj Speaker.bot cl.fail_message
    ⟨.ok ⟨pys "fail", [], [], cl.fail_message⟩, proj2, cl.calls, 0, []⟩
  | some t =>
    match parseDevide t with
    | .error e => ⟨.error e, proj, cl.calls, 0, []⟩
    | .ok dv =>
      let ia := inappropriateAnswer dv.Inappropriate
      let user_requests := pyJoinNL dv.Modification_Requests
      let user_question := pyJoinNL dv.Questions
      let dr := devideResult user_requests user_question ia
      if dv.Modification_Requests = [] then
        let proj1 := save_chat proj Speaker.user message
        if dv.Questions = [] then
          let reply := dr ++ ia ++ pys "\n\n무엇을 도와드릴까요?"
          ⟨.ok ⟨pys "success", [], [], reply⟩, proj1, cl.calls, 0, []⟩
        else qnaBranch dr ia env proj1 cl.calls
      else
        let mb := modificationBranch user_requests user_question dr ia env proj
        ⟨.ok mb.resp, mb.proj, cl.calls, 0, mb.trace⟩


/-! ## Helper lemmas -/

theorem imageItemStep_not_obj (env : ImgEnv) (td : PyStr) (acc : FS × List Nat × Nat)
    (item : Json) (h : ∀ kvs, item ≠ Json.obj kvs) :
    imageItemStep env td acc item = .error (pys "AttributeError: get") := by
  cases item with
  | obj kvs => exact absurd rfl (h kvs)
  | null => rfl
  | bool b => rfl
  | num n => rfl
  | str s => rfl
  | arr xs => rfl

theorem imageItemStep_obj_str (env : ImgEnv) (td : PyStr) (acc : FS × List Nat × Nat)
    (kvs : List (PyStr × Json)) (fp : PyStr)
    (h : (assocLookup (pys "path") kvs).getD (.str []) = .str fp) :
    ∃ fs2 g2 i2, imageItemStep env td acc (Json.obj kvs) = .ok (fs2, g2, i2) := by
  simp only [imageItemStep, h]
  split
  · exact ⟨_, _, _, rfl⟩
  · exact ⟨_, _, _, rfl⟩

theorem imageItemStep_obj_shape (env : ImgEnv) (td : PyStr) (acc : FS × List Nat × Nat)
    (kvs : List (PyStr × Json)) :
    (∃ fs2 g2 i2, imageItemStep env td acc (Json.obj kvs) = .ok (fs2, g2, i2))
    ∨ imageItemStep env td acc (Json.obj kvs) = .error (pys "TypeError: str expected") := by
  cases h : (assocLookup (pys "path") kvs).getD (.str []) with
  | str fp => exact Or.inl (imageItemStep_obj_str env td acc kvs fp h)
  | null => exact Or.inr (by simp only [imageItemStep, h])
  | bool b => exact Or.inr (by simp only [imageItemStep, h])
  | num n => exact Or.inr (by simp only [imageItemStep, h])
  | arr xs => exact Or.inr (by simp only [imageItemStep, h])
  | obj kvs2 => exact Or.inr (by simp only [imageItemStep, h])

theorem imagesFold_fst_const (env env' : ImgEnv) (td td' : PyStr) :
    ∀ (items : List Json) (fs fs' : FS) (g g' : List Nat) (i i' : Nat),
    (imagesFold env td items fs g i).1 = (imagesFold env' td' items fs' g' i').1 := by
  intro items
  induction items with
  | nil => intro fs fs' g g' i i'; rfl
  | cons item rest ih =>
    intro fs fs' g g' i i'
    by_cases hobj : ∃ kvs, item = Json.obj kvs
    · obtain ⟨kvs, rfl⟩ := hobj
      cases h : (assocLookup (pys "path") kvs).getD (.str []) with
      | str fp =>
        obtain ⟨fs2, g2, i2, hout⟩ := imageItemStep_obj_str env td (fs, g, i) kvs fp h
        obtain ⟨fs3, g3, i3, hout'⟩ := imageItemStep_obj_str env' td' (fs', g', i') kvs fp h
        simp only [imagesFold, hout, hout']
        exact ih _ _ _ _ _ _
      | null =>
        have h2 : imageItemStep env td (fs, g, i) (Json.obj kvs)
            = .error (pys "TypeError: str expected") := by simp only [imageItemStep, h]
        have h3 : imageItemStep env' td' (fs', g', i') (Json.obj kvs)
            = .error (pys "TypeError: str expected") := by simp only [imageItemStep, h]
        simp only [imagesFold, h2, h3]
      | bool b =>
        have h2 : imageItemStep env td (fs, g, i) (Json.obj kvs)
            = .error (pys "TypeError: str expected") := by simp only [imageItemStep, h]
        have h3 : imageItemStep env' td' (fs', g', i') (Json.obj kvs)
            = .error (pys "TypeError: str expected") := by simp only [imageItemStep, h]
        simp only [imagesFold, h2, h3]
      | num n =>
        have h2 : imageItemStep env td (fs, g, i) (Json.obj kvs)
            = .error (pys "TypeError: str expected") := by simp only [imageItemStep, h]
        have h3 : imageItemStep env' td' (fs', g', i') (Json.obj kvs)
            = .error (pys "TypeError: str expected") := by simp only [imageItemStep, h]
        simp only [imagesFold, h2, h3]
      | arr xs =>
        have h2 : imageItemStep env td (fs, g, i) (Json.obj kvs)
            = .error (pys "TypeError: str expected") := by simp only [imageItemStep, h]
        have h3 : imageItemStep env' td' (fs', g', i') (Json.obj kvs)
            = .error (pys "TypeError: str expected") := by simp only [imageItemStep, h]
        simp only [imagesFold, h2, h3]
      | obj kvs2 =>
        have h2 : imageItemStep env td (fs, g, i) (Json.obj kvs)
            = .error (pys "TypeError: str expected") := by simp only [imageItemStep, h]
        have h3 : imageItemStep env' td' (fs', g', i') (Json.obj kvs)
            = .error (pys "TypeError: str expected") := by simp only [imageItemStep, h]
        simp only [imagesFold, h2, h3]
    · push_neg at hobj
      have h2 := imageItemStep_not_obj env td (fs, g, i) item hobj
      have h3 := imageItemStep_not_obj env' td' (fs', g', i') item hobj
      simp only [imagesFold, h2, h3]

theorem imagesFold_fst_eq (env : ImgEnv) (td : PyStr) :
    ∀ (items : List Json) (fs : FS) (g : List Nat) (i : Nat),
    (imagesFold env td items fs g i).1 = imagesErrItems items := by
  intro items
  induction items with
  | nil => intro fs g i; rfl
  | cons item rest ih =>
    intro fs g i
    cases item with
    | obj kvs =>
      cases h : (assocLookup (pys "path") kvs).getD (.str []) with
      | str fp =>
        obtain ⟨fs2, g2, i2, hout⟩ := imageItemStep_obj_str env td (fs, g, i) kvs fp h
        simp only [imagesFold, hout, imagesErrItems, h]
        exact ih _ _ _
      | null =>
        have h2 : imageItemStep env td (fs, g, i) (Json.obj kvs)
            = .error (pys "TypeError: str expected") := by simp only [imageItemStep, h]
        simp only [imagesFold, h2, imagesErrItems, h]
      | bool b =>
        have h2 : imageItemStep env td (fs, g, i) (Json.obj kvs)
            = .error (pys "TypeError: str expected") := by simp only [imageItemStep, h]
        simp only [imagesFold, h2, imagesErrItems, h]
      | num n =>
        have h2 : imageItemStep env td (fs, g, i) (Json.obj kvs)
            = .error (pys "TypeError: str expected") := by simp only [imageItemStep, h]
        simp only [imagesFold, h2, imagesErrItems, h]
      | arr xs =>
        have h2 : imageItemStep env td (fs, g, i) (Json.obj kvs)
            = .error (pys "TypeError: str expected") := by simp only [imageItemStep, h]
        simp only [imagesFold, h2, imagesErrItems, h]
      | obj kvs2 =>
        have h2 : imageItemStep env td (fs, g, i) (Json.obj kvs)
            = .error (pys "TypeError: str expected") := by simp only [imageItemStep, h]
        simp only [imagesFold, h2, imagesErrItems, h]
    | null => simp [imagesFold, imageItemStep, imagesErrItems]
    | bool b => simp [imagesFold, imageItemStep, imagesErrItems]
    | num n => simp [imagesFold, imageItemStep, imagesErrItems]
    | str s => simp [imagesFold, imageItemStep, imagesErrItems]
    | arr xs => simp [imagesFold, imageItemStep, imagesErrItems]

theorem check_images_fst_eq (d : Json) (b : PyStr) (env : ImgEnv) (fs : FS) :
    (check_and_create_images_with_text d b env fs).1 = imagesErr d := by
  cases hI : imagesOfData d with
  | error e => simp [check_and_create_images_with_text, imagesErr, hI]
  | ok items =>
    cases items with
    | nil => simp [check_and_create_images_with_text, imagesErr, hI]
    | cons first rest =>
      cases first with
      | obj kvs =>
        cases hp : (assocLookup (pys "path") kvs).getD (.str []) with
        | str fp =>
          simp only [check_and_create_images_with_text, hI, hp]
          rw [imagesFold_fst_eq env (pathJoin b (dirname fp)) (Json.obj kvs :: rest) fs [] 0]
          simp only [imagesErr, hI]
        | null => simp [check_and_create_images_with_text, imagesErr, imagesErrItems, hI, hp]
        | bool b2 => simp [check_and_create_images_with_text, imagesErr, imagesErrItems, hI, hp]
        | num n => simp [check_and_create_images_with_text, imagesErr, imagesErrItems, hI, hp]
        | arr xs => simp [check_and_create_images_with_text, imagesErr, imagesErrItems, hI, hp]
        | obj kvs2 => simp [check_and_create_images_with_text, imagesErr, imagesErrItems, hI, hp]
      | null => simp [check_and_create_images_with_text, imagesErr, hI]
      | bool b2 => simp [check_and_create_images_with_text, imagesErr, hI]
      | num n => simp [check_and_create_images_with_text, imagesErr, hI]
      | str s => simp [check_and_create_images_with_text, imagesErr, hI]
      | arr xs => simp [check_and_create_images_with_text, imagesErr, hI]

theorem modifyEffectData_chat (gd : PyStr) (proj1 : ProjectState) (ienv : ImgEnv)
    (sc : Json → FS → FS) : (modifyEffectData gd proj1 ienv sc).chat = proj1.chat := by
  cases hj : json_loads gd with
  | error e => simp [modifyEffectData, hj]
  | ok jd =>
    cases hc : (check_and_create_images_with_text jd GAME_DIRpath ienv proj1.assets).1 with
    | error e => simp [modifyEffectData, hj, hc]
    | ok u => simp [modifyEffectData, hj, hc]

theorem modifyEffectData_store (gd : PyStr) (proj1 : ProjectState) (ienv : ImgEnv)
    (sc : Json → FS → FS) : (modifyEffectData gd proj1 ienv sc).store = proj1.store := by
  cases hj : json_loads gd with
  | error e => simp [modifyEffectData, hj]
  | ok jd =>
    cases hc : (check_and_create_images_with_text jd GAME_DIRpath ienv proj1.assets).1 with
    | error e => simp [modifyEffectData, hj, hc]
    | ok u => simp [modifyEffectData, hj, hc]

theorem modifyEffect_chat (llm : Except PyStr PyStr) (proj : ProjectState) (ienv : ImgEnv)
    (sc : Json → FS → FS) : (modifyEffect llm proj ienv sc).chat = proj.chat := by
  cases llm with
  | error e => rfl
  | ok text =>
    simp only [modifyEffect, create_project_structure]
    generalize modify_code_parsed text = gcd
    obtain ⟨gc, gd, d⟩ := gcd
    split
    · rw [modifyEffectData_chat]
      split <;> rfl
    · split <;> rfl

theorem modifyEffect_store (llm : Except PyStr PyStr) (proj : ProjectState) (ienv : ImgEnv)
    (sc : Json → FS → FS) : (modifyEffect llm proj ienv sc).store = proj.store := by
  cases llm with
  | error e => rfl
  | ok text =>
    simp only [modifyEffect, create_project_structure]
    generalize modify_code_parsed text = gcd
    obtain ⟨gc, gd, d⟩ := gcd
    split
    · rw [modifyEffectData_store]
      split <;> rfl
    · split <;> rfl

theorem genStep_proj (env : Env) (i : Nat) (st : GenSt) :
    (genStep env i st).proj
      = modifyEffect (env.genLLM i) st.proj (env.img i) env.soundCopy := by
  simp only [genStep, modify_code]
  cases modifyResult (env.genLLM i) (env.compiler i) with
  | ok out =>
    obtain ⟨gc, gd, d, e⟩ := out
    by_cases he : e = [] <;> simp [he]
  | error e => simp

theorem genStep_trace (env : Env) (i : Nat) (st : GenSt) :
    (genStep env i st).trace = st.trace ++ [(st.message, st.q_msg)] := by
  simp only [genStep, modify_code]
  cases modifyResult (env.genLLM i) (env.compiler i) with
  | ok out =>
    obtain ⟨gc, gd, d, e⟩ := out
    by_cases he : e = [] <;> simp [he]
  | error e => simp

theorem genStep_error (env : Env) (i : Nat) (st : GenSt) (e : PyStr)
    (h : iterResult env i = .error e) :
    genStep env i st = { st with
      proj := modifyEffect (env.genLLM i) st.proj (env.img i) env.soundCopy
      trace := st.trace ++ [(st.message, st.q_msg)]
      fail_message := errFmt e
      q_msg := [] } := by
  simp only [iterResult] at h
  simp only [genStep, modify_code, h]

theorem genStep_ok_success (env : Env) (i : Nat) (st : GenSt) (gc gd d : PyStr)
    (h : iterResult env i = .ok (gc, gd, d, [])) :
    genStep env i st = { st with
      proj := modifyEffect (env.genLLM i) st.proj (env.img i) env.soundCopy
      trace := st.trace ++ [(st.message, st.q_msg)]
      game_code := gc
      game_data := gd
      description_total := st.description_total ++ d
      success := true } := by
  simp only [iterResult] at h
  simp only [genStep, modify_code, h]
  simp

theorem genStep_ok_error (env : Env) (i : Nat) (st : GenSt) (gc gd d e : PyStr)
    (h : iterResult env i = .ok (gc, gd, d, e)) (he : e ≠ []) :
    genStep env i st = { st with
      proj := modifyEffect (env.genLLM i) st.proj (env.img i) env.soundCopy
      trace := st.trace ++ [(st.message, st.q_msg)]
      game_code := gc
      game_data := gd
      description_total := st.description_total ++ d ++ errBlock e
      message := e
      q_msg := [] } := by
  simp only [iterResult] at h
  simp only [genStep, modify_code, h]
  simp [he, List.append_assoc]

theorem genLoop_of_success (env : Env) (l : List Nat) (st : GenSt)
    (h : st.success = true) : genLoop env l st = st := by
  cases l with
  | nil => rfl
  | cons i rest => simp [genLoop, h]

theorem genLoop_chat (env : Env) :
    ∀ (l : List Nat) (st : GenSt), (genLoop env l st).proj.chat = st.proj.chat := by
  intro l
  induction l with
  | nil => intro st; rfl
  | cons i rest ih =>
    intro st
    by_cases h : st.success = true
    · simp [genLoop, h]
    · have h2 : st.success = false := by revert h; cases st.success <;> simp
      simp only [genLoop, h2, Bool.false_eq_true, if_false]
      rw [ih, genStep_proj, modifyEffect_chat]

theorem genLoop_store (env : Env) :
    ∀ (l : List Nat) (st : GenSt), (genLoop env l st).proj.store = st.proj.store := by
  intro l
  induction l with
  | nil => intro st; rfl
  | cons i rest ih =>
    intro st
    by_cases h : st.success = true
    · simp [genLoop, h]
    · have h2 : st.success = false := by revert h; cases st.success <;> simp
      simp only [genLoop, h2, Bool.false_eq_true, if_false]
      rw [ih, genStep_proj, modifyEffect_store]

theorem genLoop_trace_le (env : Env) :
    ∀ (l : List Nat) (st : GenSt),
    (genLoop env l st).trace.length ≤ st.trace.length + l.length := by
  intro l
  induction l with
  | nil => intro st; simp [genLoop]
  | cons i rest ih =>
    intro st
    by_cases h : st.success = true
    · simp [genLoop, h]
    · have h2 : st.success = false := by revert h; cases st.success <;> simp
      simp only [genLoop, h2, Bool.false_eq_true, if_false]
      calc (genLoop env rest (genStep env i st)).trace.length
          ≤ (genStep env i st).trace.length + rest.length := ih _
        _ = st.trace.length + 1 + rest.length := by rw [genStep_trace]; simp
        _ = st.trace.length + (i :: rest).length := by simp; omega

/-- The sequence of `(message, q_msg)` inputs the retry loop hands to the
generator, computed from the per-iteration outcomes alone: the first entry
is the current pair, a non-empty error replaces the next message, an
exception leaves it unchanged, and `q_msg` is cleared after the first
iteration; the sequence stops after a success. -/
def expectedTrace (env : Env) : Nat → Nat → PyStr → PyStr → List (PyStr × PyStr)
  | 0, _, _, _ => []
  | n + 1, i, m, q =>
    (m, q) ::
      match iterResult env i with
      | .ok (_, _, _, e) => if e = [] then [] else expectedTrace env n (i + 1) e []
      | .error _ => expectedTrace env n (i + 1) m []

theorem genLoop_trace_eq (env : Env) :
    ∀ (n k : Nat) (st : GenSt), st.success = false →
    (genLoop env (List.range' k n) st).trace
      = st.trace ++ expectedTrace env n k st.message st.q_msg := by
  intro n
  induction n with
  | zero => intro k st h; simp [genLoop, expectedTrace, List.range']
  | succ n ih =>
    intro k st h
    rw [List.range'_succ]
    simp only [genLoop, h, Bool.false_eq_true, if_false]
    cases hr : iterResult env k with
    | error ex =>
      rw [genStep_error env k st ex hr, ih]
      · simp [expectedTrace, hr]
      · exact h
    | ok out =>
      obtain ⟨gc, gd, d, e⟩ := out
      by_cases he : e = []
      · subst he
        rw [genStep_ok_success env k st gc gd d hr, genLoop_of_success]
        · simp [expectedTrace, hr]
        · rfl
      · rw [genStep_ok_error env k st gc gd d e hr he, ih]
        · simp [expectedTrace, hr, he]
        · exact h

theorem expectedTrace_q_nil (env : Env) :
    ∀ (n k : Nat) (m : PyStr) (p : PyStr × PyStr),
    p ∈ expectedTrace env n k m [] → p.2 = [] := by
  intro n
  induction n with
  | zero => intro k m p hp; simp [expectedTrace] at hp
  | succ n ih =>
    intro k m p hp
    simp only [expectedTrace] at hp
    rcases List.mem_cons.mp hp with h | h
    · subst h; rfl
    · cases hr : iterResult env k with
      | error ex => rw [hr] at h; exact ih _ _ _ h
      | ok out =>
        obtain ⟨gc, gd, d, e⟩ := out
        rw [hr] at h
        by_cases he : e = []
        · simp [he] at h
        · simp only [he, if_neg, if_false] at h
          exact ih _ _ _ h

theorem expectedTrace_tail_q_nil (env : Env) (n k : Nat) (m q : PyStr)
    (j : Nat) (p : PyStr × PyStr)
    (hp : (expectedTrace env n k m q).get? (j + 1) = some p) : p.2 = [] := by
  cases n with
  | zero => simp [expectedTrace] at hp
  | succ n =>
    simp only [expectedTrace, List.get?_cons_succ] at hp
    have hmem := List.get?_mem hp
    cases hr : iterResult env k with
    | error ex =>
      rw [hr] at hmem
      exact expectedTrace_q_nil env _ _ _ _ hmem
    | ok out =>
      obtain ⟨gc, gd, d, e⟩ := out
      rw [hr] at hmem
      by_cases he : e = []
      · simp [he] at hmem
      · simp only [he, if_neg, if_false] at hmem
        exact expectedTrace_q_nil env _ _ _ _ hmem

theorem expectedTrace_head (env : Env) (n k : Nat) (m q : PyStr) (h : 0 < n) :
    (expectedTrace env n k m q).get? 0 = some (m, q) := by
  cases n with
  | zero => omega
  | succ n => rfl

theorem expectedTrace_link (env : Env) :
    ∀ (n : Nat) (j k : Nat) (m q : PyStr) (gc gd d e : PyStr) (p : PyStr × PyStr),
    iterResult env (k + j) = .ok (gc, gd, d, e) → e ≠ [] →
    (expectedTrace env n k m q).get? (j + 1) = some p → p.1 = e := by
  intro n
  induction n with
  | zero => intro j k m q gc gd d e p _ _ hp; simp [expectedTrace] at hp
  | succ n ih =>
    intro j k m q gc gd d e p hr he hp
    simp only [expectedTrace, List.get?_cons_succ] at hp
    cases j with
    | zero =>
      rw [Nat.add_zero] at hr
      rw [hr] at hp
      simp only [he, if_neg, if_false] at hp
      cases n with
      | zero => simp [expectedTrace] at hp
      | succ n =>
        rw [expectedTrace_head env _ _ _ _ (Nat.succ_pos n)] at hp
        cases hp
        rfl
    | succ j =>
      cases hr0 : iterResult env k with
      | error ex =>
        rw [hr0] at hp
        exact ih j (k + 1) m [] gc gd d e p
          (by rw [show k + 1 + j = k + (j + 1) by omega]; exact hr) he hp
      | ok out0 =>
        obtain ⟨gc0, gd0, d0, e0⟩ := out0
        rw [hr0] at hp
        by_cases he0 : e0 = []
        · simp [he0] at hp
        · simp only [he0, if_neg, if_false] at hp
          exact ih j (k + 1) e0 [] gc gd d e p
            (by rw [show k + 1 + j = k + (j + 1) by omega]; exact hr) he hp

theorem expectedTrace_len_allErr (env : Env) :
    ∀ (n k : Nat) (m q : PyStr),
    (∀ j, k ≤ j → j < k + n → ∃ gc gd d e, iterResult env j = .ok (gc, gd, d, e) ∧ e ≠ []) →
    (expectedTrace env n k m q).length = n := by
  intro n
  induction n with
  | zero => intro k m q _; rfl
  | succ n ih =>
    intro k m q hall
    obtain ⟨gc, gd, d, e, hr, he⟩ := hall k (Nat.le_refl k) (by omega)
    simp only [expectedTrace, hr, he, if_neg, if_false, List.length_cons]
    rw [ih (k + 1) e [] (fun j h1 h2 => hall j (by omega) (by omega))]

theorem genLoop_allErr (env : Env) :
    ∀ (n k : Nat) (st : GenSt),
    (∀ j, k ≤ j → j < k + n → ∃ gc gd d e, iterResult env j = .ok (gc, gd, d, e) ∧ e ≠ []) →
    st.success = false → st.fail_message = [] →
    (genLoop env (List.range' k n) st).success = false
      ∧ (genLoop env (List.range' k n) st).fail_message = [] := by
  intro n
  induction n with
  | zero => intro k st _ h1 h2; simp [List.range', genLoop]; exact ⟨h1, h2⟩
  | succ n ih =>
    intro k st hall h1 h2
    rw [List.range'_succ]
    simp only [genLoop, h1, Bool.false_eq_true, if_false]
    obtain ⟨gc, gd, d, e, hr, he⟩ := hall k (Nat.le_refl k) (by omega)
    rw [genStep_ok_error env k st gc gd d e hr he]
    exact ih (k + 1) _ (fun j ha hb => hall j (by omega) (by omega)) h1 h2

theorem tryLoop_cons_error (f : Nat → Except PyStr PyStr) (i : Nat) (rest : List Nat)
    (fm e : PyStr) (h : f i = .error e) :
    tryLoop f (i :: rest) fm = ⟨(tryLoop f rest (errFmt e)).res,
      (tryLoop f rest (errFmt e)).fail_message, (tryLoop f rest (errFmt e)).calls + 1⟩ := by
  simp [tryLoop, h]

theorem tryLoop_all_err (f : Nat → Except PyStr PyStr) :
    ∀ (l : List Nat) (fm : PyStr), l ≠ [] →
    (∀ i ∈ l, ∃ e, f i = .error e) →
    ∃ last e, l.getLast? = some last ∧ f last = .error e
      ∧ tryLoop f l fm = ⟨none, errFmt e, l.length⟩ := by
  intro l
  induction l with
  | nil => intro fm h; exact absurd rfl h
  | cons i rest ih =>
    intro fm _ hall
    obtain ⟨e, he⟩ := hall i (List.mem_cons_self i rest)
    cases rest with
    | nil =>
      exact ⟨i, e, rfl, he, by simp [tryLoop, he]⟩
    | cons j rest2 =>
      obtain ⟨last, e2, hlast, hf, hloop⟩ :=
        ih (errFmt e) (by simp) (fun x hx => hall x (List.mem_cons_of_mem i hx))
      refine ⟨last, e2, ?_, hf, ?_⟩
      · rw [List.getLast?_cons_cons]; exact hlast
      · rw [tryLoop_cons_error f i (j :: rest2) fm e he, hloop]
        rfl

theorem tryLoop_first_ok (f : Nat → Except PyStr PyStr) (i : Nat) (rest : List Nat)
    (fm t : PyStr) (h : f i = .ok t) :
    tryLoop f (i :: rest) fm = ⟨some t, fm, 1⟩ := by
  simp [tryLoop, h]

/-- The final loop state reached inside `modificationBranch`. -/
def mbSt (ur uq : PyStr) (env : Env) (proj : ProjectState) : GenSt :=
  genLoop env (List.range MAX_ATTEMPTS)
    ⟨ur, uq, [], [], [], false, [], save_chat proj Speaker.user ur, []⟩

theorem modificationBranch_trace (ur uq dr ia : PyStr) (env : Env) (proj : ProjectState) :
    (modificationBranch ur uq dr ia env proj).trace = (mbSt ur uq env proj).trace := by
  simp only [modificationBranch, mbSt]
  split <;> rfl

theorem modificationBranch_resp_fail (ur uq dr ia : PyStr) (env : Env) (proj : ProjectState)
    (h : (mbSt ur uq env proj).success = false) :
    (modificationBranch ur uq dr ia env proj).resp
      = ⟨pys "fail", (mbSt ur uq env proj).game_code, (mbSt ur uq env proj).game_data,
         dr ++ (mbSt ur uq env proj).fail_message ++ pys "\n\n" ++ ia⟩ := by
  simp only [mbSt] at h
  simp only [modificationBranch, h, Bool.false_eq_true, if_false, mbSt]

theorem modificationBranch_proj_fail (ur uq dr ia : PyStr) (env : Env) (proj : ProjectState)
    (h : (mbSt ur uq env proj).success = false) :
    (modificationBranch ur uq dr ia env proj).proj
      = save_chat (mbSt ur uq env proj).proj Speaker.bot
          (dr ++ (mbSt ur uq env proj).fail_message ++ pys "\n\n" ++ ia) := by
  simp only [mbSt] at h
  simp only [modificationBranch, h, Bool.false_eq_true, if_false, mbSt]

theorem modificationBranch_resp_success (ur uq dr ia : PyStr) (env : Env) (proj : ProjectState)
    (h : (mbSt ur uq env proj).success = true) :
    (modificationBranch ur uq dr ia env proj).resp
      = ⟨pys "success", (mbSt ur uq env proj).game_code, (mbSt ur uq env proj).game_data,
         dr ++ (mbSt ur uq env proj).description_total ++ pys "\n\n" ++ ia⟩ := by
  simp only [mbSt] at h
  simp only [modificationBranch, h, if_true, mbSt]

theorem modificationBranch_proj_success (ur uq dr ia : PyStr) (env : Env) (proj : ProjectState)
    (h : (mbSt ur uq env proj).success = true) :
    (modificationBranch ur uq dr ia env proj).proj
      = save_chat
          (if (mbSt ur uq env proj).game_code ≠ [] ∨ (mbSt ur uq env proj).game_data ≠ [] then
            if proj.code.isNone then
              { (mbSt ur uq env proj).proj with
                store := create_version (mbSt ur uq env proj).proj.store none ur }
            else
              { (mbSt ur uq env proj).proj with
                store := create_version (mbSt ur uq env proj).proj.store
                  (find_current_version_from_file (mbSt ur uq env proj).proj.store).version ur }
          else (mbSt ur uq env proj).proj)
          Speaker.bot
          (dr ++ (mbSt ur uq env proj).description_total ++ pys "\n\n" ++ ia) := by
  simp only [mbSt] at h
  simp only [modificationBranch, h, if_true, mbSt]

theorem mbSt_chat (ur uq : PyStr) (env : Env) (proj : ProjectState) :
    (mbSt ur uq env proj).proj.chat = proj.chat ++ [(Speaker.user, ur)] := by
  simp only [mbSt]
  rw [genLoop_chat]
  rfl

theorem mbSt_store (ur uq : PyStr) (env : Env) (proj : ProjectState) :
    (mbSt ur uq env proj).proj.store = proj.store := by
  simp only [mbSt]
  rw [genLoop_store]
  rfl

/-! ## Claims -/

/-- Environment for the C1 scenario: the generator always answers with a
marker-free text (so both produced files are empty) and the compiler
always reports the diagnostic `CERR`. -/
def envC1 : Env := ⟨fun _ => .error [], fun _ => .error [], fun _ => .ok (pys "x"),
  fun _ => pys "CERR", fun _ => imgEnv0, fun _ s => s⟩

/-- C1 counterexample: a run in which all `MAX_ATTEMPTS = 5` iterations end
with the non-empty compiler error `CERR` (certified by the fifth
iteration's result and by the trace length) ends with status `fail`, but
the reply returned to the caller does not contain the last iteration's
error: `fail_message` is only set by the exception handler, so a pure
compile-error exhaustion reports no error text at all. -/
theorem C1_counterexample :
    (modificationBranch (pys "req") (pys "q") (pys "DR") (pys "IA") envC1 emptyProj).resp.status
        = pys "fail"
    ∧ (iterResult envC1 4).toOption.map (fun r => r.2.2.2) = some (pys "CERR")
    ∧ (modificationBranch (pys "req") (pys "q") (pys "DR") (pys "IA") envC1
        emptyProj).trace.length = MAX_ATTEMPTS
    ∧ pyContains (pys "CERR")
        (modificationBranch (pys "req") (pys "q") (pys "DR") (pys "IA") envC1
          emptyProj).resp.reply = false := by
  refine ⟨?_, ?_, ?_, ?_⟩ <;> decide

/-- C1 (amended): the generation-retry loop performs at most
`MAX_ATTEMPTS` (5) iterations for every sequence of generator/compiler
outcomes; and when every iteration returns normally with a non-empty
error, the loop runs all 5 iterations and the request ends with status
`"fail"`, but the reply handed to the caller is only the classification
summary, the (empty) exception text and the rejection text — the last
iteration's error is not part of it. -/
theorem C1_retry_budget_and_exhaustion (ur uq dr ia : PyStr) (env : Env)
    (proj : ProjectState) :
    (modificationBranch ur uq dr ia env proj).trace.length ≤ MAX_ATTEMPTS
    ∧ ((∀ j, j < MAX_ATTEMPTS →
          ∃ gc gd d e, iterResult env j = .ok (gc, gd, d, e) ∧ e ≠ []) →
        (modificationBranch ur uq dr ia env proj).trace.length = MAX_ATTEMPTS
        ∧ (modificationBranch ur uq dr ia env proj).resp.status = pys "fail"
        ∧ (modificationBranch ur uq dr ia env proj).resp.reply
            = dr ++ pys "\n\n" ++ ia) := by
  constructor
  · rw [modificationBranch_trace]
    have h := genLoop_trace_le env (List.range MAX_ATTEMPTS)
      ⟨ur, uq, [], [], [], false, [], save_chat proj Speaker.user ur, []⟩
    simpa [mbSt] using h
  · intro hall
    have hall' : ∀ j, 0 ≤ j → j < 0 + MAX_ATTEMPTS →
        ∃ gc gd d e, iterResult env j = .ok (gc, gd, d, e) ∧ e ≠ [] := by
      intro j _ hj
      exact hall j (by omega)
    have hloop := genLoop_allErr env MAX_ATTEMPTS 0
      ⟨ur, uq, [], [], [], false, [], save_chat proj Speaker.user ur, []⟩ hall' rfl rfl
    rw [← List.range_eq_range'] at hloop
    have hsucc : (mbSt ur uq env proj).success = false := hloop.1
    have hfm : (mbSt ur uq env proj).fail_message = [] := hloop.2
    refine ⟨?_, ?_, ?_⟩
    · rw [modificationBranch_trace]
      simp only [mbSt]
      rw [List.range_eq_range', genLoop_trace_eq env MAX_ATTEMPTS 0 _ rfl]
      simp only [List.nil_append, List.length_nil]
      exact expectedTrace_len_allErr env MAX_ATTEMPTS 0 ur uq hall'
    · rw [modificationBranch_resp_fail ur uq dr ia env proj hsucc]
    · rw [modificationBranch_resp_fail ur uq dr ia env proj hsucc, hfm]
      simp

/-- C1 witness: a concrete run of the exhaustion case. -/
theorem C1_retry_budget_and_exhaustion_witness :
    (modificationBranch (pys "r2") (pys "q2") (pys "D2") (pys "I2") envC1
        emptyProj).trace.length = MAX_ATTEMPTS
    ∧ (modificationBranch (pys "r2") (pys "q2") (pys "D2") (pys "I2") envC1
        emptyProj).resp.status = pys "fail" := by
  have h := (C1_retry_budget_and_exhaustion (pys "r2") (pys "q2") (pys "D2") (pys "I2")
    envC1 emptyProj).2 (fun j _ =>
      ⟨[], [], pys "< game.ts : 수정 X >   < data.json : 수정 X >\n", pys "CERR", rfl,
        by decide⟩)
  exact ⟨h.1, h.2.1⟩

/-- C2 (confirmed): within one run of the generation-retry loop, the first
generator invocation receives `(user_requests, user_question)`; every later
invocation receives the empty string as auxiliary question; and whenever
iteration `j` returns normally with a non-empty error, invocation `j + 1`
receives exactly that error string as its consolidated request. -/
theorem C2_error_feedback_and_question_once (ur uq dr ia : PyStr) (env : Env)
    (proj : ProjectState) :
    (∀ p, (modificationBranch ur uq dr ia env proj).trace.get? 0 = some p → p = (ur, uq))
    ∧ (∀ j p, (modificationBranch ur uq dr ia env proj).trace.get? (j + 1) = some p →
        p.2 = [] ∧ (∀ gc gd d e, iterResult env j = .ok (gc, gd, d, e) → e ≠ [] → p.1 = e)) := by
  have htr : (modificationBranch ur uq dr ia env proj).trace
      = expectedTrace env MAX_ATTEMPTS 0 ur uq := by
    rw [modificationBranch_trace]
    simp only [mbSt]
    rw [List.range_eq_range', genLoop_trace_eq env MAX_ATTEMPTS 0 _ rfl]
    simp only [List.nil_append]
  constructor
  · intro p hp
    rw [htr, expectedTrace_head env MAX_ATTEMPTS 0 ur uq (by simp [MAX_ATTEMPTS])] at hp
    exact (Option.some.inj hp).symm
  · intro j p hp
    rw [htr] at hp
    refine ⟨expectedTrace_tail_q_nil env MAX_ATTEMPTS 0 ur uq j p hp, ?_⟩
    intro gc gd d e hr he
    exact expectedTrace_link env MAX_ATTEMPTS j 0 ur uq gc gd d e p
      (by rw [Nat.zero_add]; exact hr) he hp

/-- Environment for the C2 witness. -/
def envC2 : Env := ⟨fun _ => .error [], fun _ => .error [], fun _ => .ok (pys "x"),
  fun _ => pys "CER2", fun _ => imgEnv0, fun _ s => s⟩

/-- C2 witness: in a concrete run whose first iteration fails with compiler
error `CER2`, the second generator invocation receives exactly `(CER2, "")`. -/
theorem C2_error_feedback_and_question_once_witness :
    (modificationBranch (pys "rq") (pys "qq") (pys "D") (pys "I") envC2 emptyProj).trace.get? 1
      = some (pys "CER2", [])
    ∧ (pys "CER2", ([] : PyStr)).1 = pys "CER2" := by
  refine ⟨by decide, ?_⟩
  have h := (C2_error_feedback_and_question_once (pys "rq") (pys "qq") (pys "D") (pys "I")
    envC2 emptyProj).2 0 (pys "CER2", []) (by decide)
  exact h.2 [] [] (pys "< game.ts : 수정 X >   < data.json : 수정 X >\n") (pys "CER2") rfl
    (by decide)

/-- The C3 failing input: a generator response whose DATA block is the
single character `{` — non-empty and not valid JSON. -/
def t3C : PyStr :=
  pys "###CODE_START###c###CODE_END######DATA_START###\x7b###DATA_END######DESCRIPTION_START###d###DESCRIPTION_END###"

/-- A project that already has a data file, to observe that it is not
overwritten. -/
def projC3 : ProjectState := { emptyProj with data := some (pys "OLD") }

set_option maxRecDepth 4000 in
/-- C3 (code bug): on a response whose DATA block is `\x7b` (non-empty,
invalid JSON), `validate_json` does produce a non-empty validation
message, but `modify_code` raises at the unguarded `json.loads` on line
556 instead of returning that message as the attempt's error: the call's
result is an exception (`isOk = false`), so the message is never folded
into the next retry's input (the generic handler at line 790 catches it
as `fail_message` only).  The data file is indeed not overwritten — the
raise precedes the write — while the code file, written earlier, is. -/
theorem C3_validation_raise_eval :
    remove_code_fences_safe (parse_ai_code_response t3C).game_data = pys "\x7b"
    ∧ validate_json (pys "\x7b") ≠ []
    ∧ ((modify_code (pys "m") (pys "q") projC3 (.ok t3C) [] imgEnv0 (fun _ s => s)).1).isOk
        = false
    ∧ ((modify_code (pys "m") (pys "q") projC3 (.ok t3C) [] imgEnv0 (fun _ s => s)).2).data
        = some (pys "OLD")
    ∧ ((modify_code (pys "m") (pys "q") projC3 (.ok t3C) [] imgEnv0 (fun _ s => s)).2).code
        = some (pys "c") := by
  refine ⟨?_, ?_, ?_, ?_, ?_⟩ <;> decide

/-- C4 (confirmed): if the retry loop ends in success with both produced
files empty, the version store (log and current pointer) is unchanged; and
conversely the version store changes only on a successful round in which
at least one of code/data is non-empty. -/
theorem C4_noop_success_not_versioned (ur uq dr ia : PyStr) (env : Env)
    (proj : ProjectState) :
    ((modificationBranch ur uq dr ia env proj).resp.status = pys "success" →
      (modificationBranch ur uq dr ia env proj).resp.code = [] →
      (modificationBranch ur uq dr ia env proj).resp.data = [] →
      (modificationBranch ur uq dr ia env proj).proj.store = proj.store)
    ∧ ((modificationBranch ur uq dr ia env proj).proj.store ≠ proj.store →
        (modificationBranch ur uq dr ia env proj).resp.status = pys "success"
        ∧ ((modificationBranch ur uq dr ia env proj).resp.code ≠ []
            ∨ (modificationBranch ur uq dr ia env proj).resp.data ≠ [])) := by
  by_cases hs : (mbSt ur uq env proj).success = true
  · have hresp := modificationBranch_resp_success ur uq dr ia env proj hs
    have hproj := modificationBranch_proj_success ur uq dr ia env proj hs
    constructor
    · intro _ h2 h3
      rw [hresp] at h2 h3
      simp only at h2 h3
      rw [hproj]
      simp only [save_chat]
      rw [if_neg (by simp [h2, h3])]
      exact mbSt_store ur uq env proj
    · intro hch
      rw [hproj] at hch
      simp only [save_chat] at hch
      by_cases hc : (mbSt ur uq env proj).game_code ≠ [] ∨ (mbSt ur uq env proj).game_data ≠ []
      · refine ⟨by rw [hresp], ?_⟩
        rw [hresp]
        simpa using hc
      · rw [if_neg hc, mbSt_store] at hch
        exact absurd rfl hch
  · have hs' : (mbSt ur uq env proj).success = false := by
      revert hs; cases (mbSt ur uq env proj).success <;> simp
    have hresp := modificationBranch_resp_fail ur uq dr ia env proj hs'
    have hproj := modificationBranch_proj_fail ur uq dr ia env proj hs'
    constructor
    · intro h1 _ _
      rw [hresp] at h1
      simp only at h1
      exact absurd h1 (by decide)
    · intro hch
      rw [hproj] at hch
      simp only [save_chat] at hch
      rw [mbSt_store] at hch
      exact absurd rfl hch

/-- Environment for the C4 witness: the first generation attempt succeeds
(empty compiler output) with a marker-free response, so both produced
files are empty. -/
def envC4 : Env := ⟨fun _ => .error [], fun _ => .error [], fun _ => .ok (pys "x"),
  fun _ => [], fun _ => imgEnv0, fun _ s => s⟩

/-- C4 witness: a successful no-op round leaves the version store of a
concrete project unchanged. -/
theorem C4_noop_success_not_versioned_witness :
    (modificationBranch (pys "r4") (pys "q4") (pys "D4") (pys "I4") envC4
      emptyProj).proj.store = emptyProj.store := by
  exact (C4_noop_success_not_versioned (pys "r4") (pys "q4") (pys "D4") (pys "I4") envC4
    emptyProj).1 (by decide) (by decide) (by decide)

/-- The C5 counterexample input: a response carrying a CODE block but no
DATA delimiter pair at all. -/
def s5C : PyStr := pys "###CODE_START###abc###CODE_END###"

/-- C5 counterexample: on a response without the DATA delimiter pair,
`game_code` extraction still yields `abc`, but `game_data` is NOT the
empty string — the `find() = -1` arithmetic produces the corrupted slice
`s[15:-1]` (here `#abc###CODE_END##` stripped), refuting the claim that an
absent pair yields the empty string for the field. -/
theorem C5_counterexample :
    subFind mDATA_START s5C = none
    ∧ subFind mDATA_END s5C = none
    ∧ (parse_ai_code_response s5C).game_code = pys "abc"
    ∧ (parse_ai_code_response s5C).game_data ≠ [] := by
  refine ⟨?_, ?_, ?_, ?_⟩ <;> decide

/-- C5 (amended): when both DATA markers are absent, the (total, never
raising) parser computes `game_data` as the stripped Python slice
`response_text[15:-1]` — in general non-empty corrupted text rather than
the empty string — while `game_code` is computed from the CODE markers
alone and is unaffected. -/
theorem C5_data_absent_slice (s : PyStr)
    (h1 : subFind mDATA_START s = none) (h2 : subFind mDATA_END s = none) :
    (parse_ai_code_response s).game_data = pyStrip (pySlice s 15 (-1)) := by
  have hlen : (mDATA_START.length : Int) = 16 := by decide
  simp only [parse_ai_code_response, pyFind, h1, h2, hlen]
  norm_num

/-- C5 witness: the amended characterisation at a concrete marker-free
response. -/
theorem C5_data_absent_slice_witness :
    subFind mDATA_START (pys "hello") = none
    ∧ subFind mDATA_END (pys "hello") = none
    ∧ (parse_ai_code_response (pys "hello")).game_data
        = pyStrip (pySlice (pys "hello") 15 (-1)) :=
  ⟨by decide, by decide, C5_data_absent_slice (pys "hello") (by decide) (by decide)⟩

theorem pyLstrip_cons_of_ne (c : Char) (l : PyStr) (h : pyIsSpace c = false) :
    pyLstrip (c :: l) = c :: l := by
  simp [pyLstrip, List.dropWhile_cons, h]

theorem pyRstrip_append_singleton (a : PyStr) (x : Char) (h : pyIsSpace x = false) :
    pyRstrip (a ++ [x]) = a ++ [x] := by
  simp [pyRstrip, List.dropWhile_cons, h]

theorem hasBsn_cons_of_ne (c : Char) (l : PyStr) (hc : c ≠ '\\') :
    hasBsn (c :: l) = hasBsn l := by
  cases l with
  | nil => rfl
  | cons d r => simp [hasBsn, hc]

theorem replaceBsn_cons_of_ne (c : Char) (l : PyStr) (hc : c ≠ '\\') :
    replaceBsn (c :: l) = c :: replaceBsn l := by
  cases l with
  | nil => rfl
  | cons d r => simp [replaceBsn, hc]

theorem replaceBsn_eq_self : ∀ (s : PyStr), hasBsn s = false → replaceBsn s = s := by
  intro s
  induction s with
  | nil => intro _; rfl
  | cons c rest ih =>
    intro h
    by_cases hc : c = '\\'
    · subst hc
      cases rest with
      | nil => rfl
      | cons d r =>
        have hd : d ≠ 'n' := by
          intro hd; subst hd; simp [hasBsn] at h
        have h2 : hasBsn (d :: r) = false := by
          simpa [hasBsn, hd] using h
        rw [show replaceBsn ('\\' :: d :: r) = '\\' :: replaceBsn (d :: r) from by
          simp [replaceBsn, hd]]
        rw [ih h2]
    · have h2 : hasBsn rest = false := by rwa [hasBsn_cons_of_ne c rest hc] at h
      rw [replaceBsn_cons_of_ne c rest hc, ih h2]

theorem hasBsn_append_no_bs : ∀ (a b : PyStr), (∀ c ∈ a, c ≠ '\\') →
    hasBsn (a ++ b) = hasBsn b := by
  intro a
  induction a with
  | nil => intro b _; rfl
  | cons c a' ih =>
    intro b h
    rw [List.cons_append, hasBsn_cons_of_ne c (a' ++ b) (h c (List.mem_cons_self c a'))]
    exact ih b (fun x hx => h x (List.mem_cons_of_mem c hx))

theorem hasBsn_append_of : ∀ (S t : PyStr), hasBsn S = false → hasBsn t = false →
    t.head? ≠ some 'n' → hasBsn (S ++ t) = false := by
  intro S
  induction S with
  | nil => intro t _ ht _; simpa using ht
  | cons c rest ih =>
    intro t h ht hhead
    cases rest with
    | nil =>
      cases t with
      | nil => rfl
      | cons d r =>
        have hd : d ≠ 'n' := by intro hd; subst hd; exact hhead rfl
        have : hasBsn (d :: r) = false := ht
        simp only [List.singleton_append, hasBsn, this, Bool.or_false]
        simp [hd]
    | cons d r2 =>
      have h1 : (c = '\\' && d = 'n') = false := by
        by_contra hcd
        simp only [hasBsn] at h
        rcases Bool.or_eq_false_iff.mp h with ⟨ha, _⟩
        exact hcd ha
      have h2 : hasBsn (d :: r2) = false := by
        simp only [hasBsn] at h
        exact (Bool.or_eq_false_iff.mp h).2
      have := ih t h2 ht hhead
      simp only [List.cons_append] at this ⊢
      simp only [hasBsn, h1, Bool.false_or]
      simpa using this

theorem subFind_singleton_append (c : Char) : ∀ (a r : PyStr), c ∉ a →
    subFind [c] (a ++ c :: r) = some a.length := by
  intro a
  induction a with
  | nil =>
    intro r _
    simp [subFind, List.isPrefixOf]
  | cons x a' ih =>
    intro r h
    have hcx : c ≠ x := List.ne_of_not_mem_cons h
    have hx : ([c].isPrefixOf (x :: (a' ++ c :: r))) = false := by
      simp [List.isPrefixOf, hcx]
    rw [List.cons_append]
    simp only [subFind, hx, Bool.false_eq_true, if_false]
    rw [ih r (fun hm => h (List.mem_cons_of_mem x hm))]
    rfl

/-- The claim's fenced-code-block construction: an opening line of three
backticks plus an optional language tag, a newline, the code, a newline,
and three closing backticks. -/
def wrapFence (lang S : PyStr) : PyStr := fence3 ++ lang ++ '\n' :: (S ++ '\n' :: fence3)

/-- C6 counterexample: the code string `a\nb` (four characters, with a
literal backslash-n and no triple backtick) does not survive the round
trip — `remove_code_fences_safe` rewrites the backslash-n pair into a real
newline inside fenced blocks (line 135), returning the three-character
string with a newline. -/
theorem C6_counterexample :
    remove_code_fences_safe (wrapFence (pys "ts") (pys "a\\nb")) = pys "a\nb"
    ∧ pys "a\nb" ≠ pys "a\\nb"
    ∧ pyContains fence3 (pys "a\\nb") = false := by
  refine ⟨?_, ?_, ?_⟩ <;> decide

/-- C6 (amended): for every code string `S` containing no triple backtick,
no literal backslash-n pair, and no leading or trailing whitespace, and
every language tag without newline or backslash, stripping the wrapped
block reproduces exactly `S`. -/
theorem C6_fence_roundtrip (lang S : PyStr)
    (hno3 : pyContains fence3 S = false)
    (hbsn : hasBsn S = false)
    (hl : pyLstrip S = S) (hr : pyRstrip S = S)
    (hlang1 : '\n' ∉ lang) (hlang2 : '\\' ∉ lang) :
    remove_code_fences_safe (wrapFence lang S) = S := by
  have e1 : wrapFence lang S = (fence3 ++ lang ++ '\n' :: S ++ ['\n', btick, btick]) ++ [btick] := by
    simp [wrapFence, fence3]
  have e2 : wrapFence lang S
      = btick :: (btick :: btick :: (lang ++ '\n' :: (S ++ '\n' :: fence3))) := by
    simp [wrapFence, fence3]
  have hrs0 : pyRstrip (wrapFence lang S) = wrapFence lang S := by
    rw [e1, pyRstrip_append_singleton _ _ (by decide)]
  have hls0 : pyLstrip (wrapFence lang S) = wrapFence lang S := by
    rw [e2, pyLstrip_cons_of_ne _ _ (by decide)]
  have hstrip : pyStrip (wrapFence lang S) = wrapFence lang S := by
    rw [pyStrip, hrs0, hls0]
  have hstart : pyStartswith fence3 (wrapFence lang S) = true := by
    rw [e2]
    simp [pyStartswith, fence3, List.isPrefixOf]
  have hB : hasBsn (wrapFence lang S) = false := by
    rw [e2]
    rw [hasBsn_cons_of_ne _ _ (by decide), hasBsn_cons_of_ne _ _ (by decide),
      hasBsn_cons_of_ne _ _ (by decide)]
    rw [hasBsn_append_no_bs lang _ (fun c hc he => hlang2 (he ▸ hc))]
    rw [hasBsn_cons_of_ne _ _ (by decide)]
    exact hasBsn_append_of S ('\n' :: fence3) hbsn (by decide) (by decide)
  have hrepl : replaceBsn (wrapFence lang S) = wrapFence lang S :=
    replaceBsn_eq_self _ hB
  have e3 : wrapFence lang S = (fence3 ++ lang) ++ '\n' :: (S ++ '\n' :: fence3) := by
    simp [wrapFence, fence3]
  have hnl : '\n' ∉ fence3 ++ lang := by
    intro hm
    rcases List.mem_append.mp hm with h | h
    · exact absurd h (by decide)
    · exact hlang1 h
  have hfind : subFind ['\n'] (wrapFence lang S) = some (3 + lang.length) := by
    rw [e3, subFind_singleton_append '\n' (fence3 ++ lang) _ hnl]
    simp [fence3]
    omega
  have e4 : wrapFence lang S = (fence3 ++ lang ++ ['\n']) ++ (S ++ '\n' :: fence3) := by
    simp [wrapFence, fence3]
  have hdrop : (wrapFence lang S).drop (3 + lang.length + 1) = S ++ '\n' :: fence3 := by
    rw [e4, List.drop_left' (by simp [fence3]; omega)]
  have e5 : S ++ '\n' :: fence3 = (S ++ ['\n', btick, btick]) ++ [btick] := by
    simp [fence3]
  have hrs : pyRstrip (S ++ '\n' :: fence3) = S ++ '\n' :: fence3 := by
    rw [e5, pyRstrip_append_singleton _ _ (by decide)]
  have hend : pyEndswith fence3 (S ++ '\n' :: fence3) = true := by
    simp [pyEndswith, List.isSuffixOf, fence3, List.reverse_append, List.isPrefixOf]
  have e6 : S ++ '\n' :: fence3 = (S ++ ['\n']) ++ fence3 := by
    simp [fence3]
  have htake : (S ++ '\n' :: fence3).take ((S ++ '\n' :: fence3).length - 3) = S ++ ['\n'] := by
    rw [e6, List.take_left' (by simp [fence3])]
  have hrs2 : pyRstrip (S ++ ['\n']) = S := by
    rw [pyRstrip, List.reverse_append]
    simp only [List.reverse_cons, List.reverse_nil, List.nil_append, List.singleton_append]
    rw [List.dropWhile_cons_of_pos (by decide)]
    exact hr
  have hstrip2 : pyStrip (S ++ ['\n']) = S := by
    rw [pyStrip, hrs2, hl]
  simp only [remove_code_fences_safe, hstrip, hstart, if_true, hrepl, hfind]
  simp only [hdrop, hrs, hend, if_true, htake, hstrip2]

/-- C6 witness: the amended round trip at a concrete code string and tag. -/
theorem C6_fence_roundtrip_witness :
    pyContains fence3 (pys "let x = 2") = false
    ∧ remove_code_fences_safe (wrapFence (pys "ts") (pys "let x = 2")) = pys "let x = 2" :=
  ⟨by decide, C6_fence_roundtrip (pys "ts") (pys "let x = 2") (by decide) (by decide)
    (by decide) (by decide) (by decide) (by decide)⟩

theorem save_chat_two (proj : ProjectState) (u b : PyStr) :
    (save_chat (save_chat proj Speaker.user u) Speaker.bot b).chat
      = proj.chat ++ [(Speaker.user, u), (Speaker.bot, b)] := by
  simp [save_chat]

theorem save_chat_after (X proj : ProjectState) (u b : PyStr)
    (h : X.chat = proj.chat ++ [(Speaker.user, u)]) :
    (save_chat X Speaker.bot b).chat
      = proj.chat ++ [(Speaker.user, u), (Speaker.bot, b)] := by
  simp [save_chat, h]

theorem process_code_classify_fail (msg : PyStr) (env : Env) (proj : ProjectState)
    (h : (tryLoop env.classifyLLM (List.range MAX_ATTEMPTS) []).res = none) :
    process_code msg env proj
      = ⟨.ok ⟨pys "fail", [], [],
          (tryLoop env.classifyLLM (List.range MAX_ATTEMPTS) []).fail_message⟩,
         save_chat proj Speaker.bot
           (tryLoop env.classifyLLM (List.range MAX_ATTEMPTS) []).fail_message,
         (tryLoop env.classifyLLM (List.range MAX_ATTEMPTS) []).calls, 0, []⟩ := by
  simp only [process_code, h]

theorem process_code_parse_error (msg : PyStr) (env : Env) (proj : ProjectState)
    (t e : PyStr)
    (ht : (tryLoop env.classifyLLM (List.range MAX_ATTEMPTS) []).res = some t)
    (he : parseDevide t = .error e) :
    process_code msg env proj
      = ⟨.error e, proj, (tryLoop env.classifyLLM (List.range MAX_ATTEMPTS) []).calls,
         0, []⟩ := by
  simp only [process_code, ht, he]

theorem process_code_nothing (msg : PyStr) (env : Env) (proj : ProjectState)
    (t : PyStr) (dv : Devide)
    (ht : (tryLoop env.classifyLLM (List.range MAX_ATTEMPTS) []).res = some t)
    (hdv : parseDevide t = .ok dv)
    (hm : dv.Modification_Requests = []) (hq : dv.Questions = []) :
    process_code msg env proj
      = ⟨.ok ⟨pys "success", [], [],
          devideResult (pyJoinNL dv.Modification_Requests) (pyJoinNL dv.Questions)
              (inappropriateAnswer dv.Inappropriate)
            ++ inappropriateAnswer dv.Inappropriate ++ pys "\n\n무엇을 도와드릴까요?"⟩,
         save_chat proj Speaker.user msg,
         (tryLoop env.classifyLLM (List.range MAX_ATTEMPTS) []).calls, 0, []⟩ := by
  simp only [process_code, ht, hdv, hm, hq, if_true]

theorem process_code_qna (msg : PyStr) (env : Env) (proj : ProjectState)
    (t : PyStr) (dv : Devide)
    (ht : (tryLoop env.classifyLLM (List.range MAX_ATTEMPTS) []).res = some t)
    (hdv : parseDevide t = .ok dv)
    (hm : dv.Modification_Requests = []) (hq : dv.Questions ≠ []) :
    process_code msg env proj
      = qnaBranch
          (devideResult (pyJoinNL dv.Modification_Requests) (pyJoinNL dv.Questions)
            (inappropriateAnswer dv.Inappropriate))
          (inappropriateAnswer dv.Inappropriate) env (save_chat proj Speaker.user msg)
          (tryLoop env.classifyLLM (List.range MAX_ATTEMPTS) []).calls := by
  simp only [process_code, ht, hdv, hm, hq, if_true, if_neg, if_false]

theorem process_code_mod (msg : PyStr) (env : Env) (proj : ProjectState)
    (t : PyStr) (dv : Devide)
    (ht : (tryLoop env.classifyLLM (List.range MAX_ATTEMPTS) []).res = some t)
    (hdv : parseDevide t = .ok dv)
    (hm : dv.Modification_Requests ≠ []) :
    process_code msg env proj
      = ⟨.ok (modificationBranch (pyJoinNL dv.Modification_Requests)
            (pyJoinNL dv.Questions)
            (devideResult (pyJoinNL dv.Modification_Requests) (pyJoinNL dv.Questions)
              (inappropriateAnswer dv.Inappropriate))
            (inappropriateAnswer dv.Inappropriate) env proj).resp,
         (modificationBranch (pyJoinNL dv.Modification_Requests)
            (pyJoinNL dv.Questions)
            (devideResult (pyJoinNL dv.Modification_Requests) (pyJoinNL dv.Questions)
              (inappropriateAnswer dv.Inappropriate))
            (inappropriateAnswer dv.Inappropriate) env proj).proj,
         (tryLoop env.classifyLLM (List.range MAX_ATTEMPTS) []).calls, 0,
         (modificationBranch (pyJoinNL dv.Modification_Requests)
            (pyJoinNL dv.Questions)
            (devideResult (pyJoinNL dv.Modification_Requests) (pyJoinNL dv.Questions)
              (inappropriateAnswer dv.Inappropriate))
            (inappropriateAnswer dv.Inappropriate) env proj).trace⟩ := by
  simp only [process_code, ht, hdv, hm, if_neg, if_false]

theorem qnaBranch_fail (dr ia : PyStr) (env : Env) (proj1 : ProjectState) (ccalls : Nat)
    (h : (tryLoop env.qnaLLM (List.range MAX_ATTEMPTS) []).res = none) :
    qnaBranch dr ia env proj1 ccalls
      = ⟨.ok ⟨pys "fail", [], [],
          dr ++ (tryLoop env.qnaLLM (List.range MAX_ATTEMPTS) []).fail_message
            ++ pys "\n\n" ++ ia⟩,
         save_chat proj1 Speaker.bot
           (dr ++ (tryLoop env.qnaLLM (List.range MAX_ATTEMPTS) []).fail_message
             ++ pys "\n\n" ++ ia),
         ccalls, (tryLoop env.qnaLLM (List.range MAX_ATTEMPTS) []).calls, []⟩ := by
  simp only [qnaBranch, h]

theorem qnaBranch_ok (dr ia : PyStr) (env : Env) (proj1 : ProjectState) (ccalls : Nat)
    (atext : PyStr)
    (h : (tryLoop env.qnaLLM (List.range MAX_ATTEMPTS) []).res = some atext) :
    qnaBranch dr ia env proj1 ccalls
      = ⟨.ok ⟨pys "success", [], [],
          dr ++ parse_ai_answer_response atext ++ pys "\n\n" ++ ia⟩,
         save_chat proj1 Speaker.bot
           (dr ++ parse_ai_answer_response atext ++ pys "\n\n" ++ ia),
         ccalls, (tryLoop env.qnaLLM (List.range MAX_ATTEMPTS) []).calls, []⟩ := by
  simp only [qnaBranch, h]

/-- A classification answer declaring nothing actionable: empty
modification-request, question and disallowed lists. -/
def tDevideEmpty : PyStr :=
  pys "\x7b\"Modification_Requests\": [], \"Questions\": [], \"Inappropriate\": []\x7d"

/-- Environment steering `process_code` into the nothing-actionable branch. -/
def envC7 : Env := ⟨fun _ => .ok tDevideEmpty, fun _ => .error [], fun _ => .error [],
  fun _ => [], fun _ => imgEnv0, fun _ s => s⟩

/-- C7 counterexample: in the nothing-actionable branch the handler
returns normally but appends only the user-speaker echo to the chat log —
no bot-speaker entry at all — refuting "exactly one bot entry and exactly
one user entry on every terminal branch".  (The classification-failure
branch conversely appends only a bot entry.) -/
theorem C7_counterexample :
    ((process_code (pys "hello") envC7 emptyProj).result).isOk = true
    ∧ (process_code (pys "hello") envC7 emptyProj).proj.chat
        = [(Speaker.user, pys "hello")] := by
  refine ⟨?_, ?_⟩ <;> decide

/-- C7 (amended): every normal return of `process_code` grows the chat log
by exactly one of: a single bot entry (classification-failure branch), a
single user entry echoing the inbound message (nothing-actionable branch),
or one user entry followed by one bot entry (Q&A and generation branches;
in the generation branch the user entry echoes the joined modification
requests rather than the raw message). -/
theorem C7_chat_discipline (msg : PyStr) (env : Env) (proj : ProjectState) (resp : Response)
    (h : (process_code msg env proj).result = .ok resp) :
    (∃ t, (process_code msg env proj).proj.chat = proj.chat ++ [(Speaker.bot, t)])
    ∨ (process_code msg env proj).proj.chat = proj.chat ++ [(Speaker.user, msg)]
    ∨ (∃ u t, (process_code msg env proj).proj.chat
        = proj.chat ++ [(Speaker.user, u), (Speaker.bot, t)]) := by
  cases hcl : (tryLoop env.classifyLLM (List.range MAX_ATTEMPTS) []).res with
  | none =>
    rw [process_code_classify_fail msg env proj hcl]
    exact Or.inl ⟨_, rfl⟩
  | some t =>
    cases hdv : parseDevide t with
    | error e =>
      rw [process_code_parse_error msg env proj t e hcl hdv] at h
      simp at h
    | ok dv =>
      by_cases hm : dv.Modification_Requests = []
      · by_cases hq : dv.Questions = []
        · rw [process_code_nothing msg env proj t dv hcl hdv hm hq]
          exact Or.inr (Or.inl rfl)
        · rw [process_code_qna msg env proj t dv hcl hdv hm hq]
          cases hqa : (tryLoop env.qnaLLM (List.range MAX_ATTEMPTS) []).res with
          | none =>
            rw [qnaBranch_fail _ _ env _ _ hqa]
            exact Or.inr (Or.inr ⟨msg, _, save_chat_two proj msg _⟩)
          | some atext =>
            rw [qnaBranch_ok _ _ env _ _ atext hqa]
            exact Or.inr (Or.inr ⟨msg, _, save_chat_two proj msg _⟩)
      · rw [process_code_mod msg env proj t dv hcl hdv hm]
        refine Or.inr (Or.inr ?_)
        by_cases hs : (mbSt (pyJoinNL dv.Modification_Requests) (pyJoinNL dv.Questions)
            env proj).success = true
        · rw [modificationBranch_proj_success _ _ _ _ env proj hs]
          have hch : (if (mbSt (pyJoinNL dv.Modification_Requests) (pyJoinNL dv.Questions)
                env proj).game_code ≠ []
              ∨ (mbSt (pyJoinNL dv.Modification_Requests) (pyJoinNL dv.Questions)
                env proj).game_data ≠ [] then
                if proj.code.isNone then
                  { (mbSt (pyJoinNL dv.Modification_Requests) (pyJoinNL dv.Questions)
                      env proj).proj with
                    store := create_version (mbSt (pyJoinNL dv.Modification_Requests)
                      (pyJoinNL dv.Questions) env proj).proj.store none
                      (pyJoinNL dv.Modification_Requests) }
                else
                  { (mbSt (pyJoinNL dv.Modification_Requests) (pyJoinNL dv.Questions)
                      env proj).proj with
                    store := create_version (mbSt (pyJoinNL dv.Modification_Requests)
                      (pyJoinNL dv.Questions) env proj).proj.store
                      (find_current_version_from_file (mbSt (pyJoinNL dv.Modification_Requests)
                        (pyJoinNL dv.Questions) env proj).proj.store).version
                      (pyJoinNL dv.Modification_Requests) }
              else (mbSt (pyJoinNL dv.Modification_Requests) (pyJoinNL dv.Questions)
                env proj).proj).chat
              = (mbSt (pyJoinNL dv.Modification_Requests) (pyJoinNL dv.Questions)
                  env proj).proj.chat := by
            split
            · split <;> rfl
            · rfl
          exact ⟨pyJoinNL dv.Modification_Requests, _,
            save_chat_after _ proj _ _ (by rw [hch, mbSt_chat])⟩
        · have hs' : (mbSt (pyJoinNL dv.Modification_Requests) (pyJoinNL dv.Questions)
              env proj).success = false := by
            revert hs
            cases (mbSt (pyJoinNL dv.Modification_Requests) (pyJoinNL dv.Questions)
              env proj).success <;> simp
          rw [modificationBranch_proj_fail _ _ _ _ env proj hs']
          exact ⟨pyJoinNL dv.Modification_Requests, _,
            save_chat_after _ proj _ _ (mbSt_chat _ _ env proj)⟩

/-- C7 witness: the amended statement applied to a concrete
nothing-actionable run. -/
theorem C7_chat_discipline_witness :
    (∃ t, (process_code (pys "hey") envC7 emptyProj).proj.chat
        = emptyProj.chat ++ [(Speaker.bot, t)])
    ∨ (process_code (pys "hey") envC7 emptyProj).proj.chat
        = emptyProj.chat ++ [(Speaker.user, pys "hey")]
    ∨ (∃ u t, (process_code (pys "hey") envC7 emptyProj).proj.chat
        = emptyProj.chat ++ [(Speaker.user, u), (Speaker.bot, t)]) :=
  C7_chat_discipline (pys "hey") envC7 emptyProj
    ⟨pys "success", [], [], pys "요청:\n\n질문:\n\n부적절:\n\n\n\n무엇을 도와드릴까요?"⟩
    rfl

/-- Environment whose classification answer is not parseable JSON. -/
def envC8 : Env := ⟨fun _ => .ok (pys "notjson"), fun _ => .error [], fun _ => .error [],
  fun _ => [], fun _ => imgEnv0, fun _ s => s⟩

/-- C8 counterexample: when the classification LLM answers on the first
try but the text fails to parse, there is no retry (one classification
call), no failed-chat turn is recorded, and the parse exception escapes
the handler (`result` is an exception, not a failure response) — refuting
both "retrying when the returned text fails to parse" and "instead of
letting an exception escape the request handler". -/
theorem C8_counterexample :
    ((process_code (pys "m") envC8 emptyProj).result).isOk = false
    ∧ (process_code (pys "m") envC8 emptyProj).classifyCalls = 1
    ∧ (process_code (pys "m") envC8 emptyProj).proj.chat = [] := by
  refine ⟨?_, ?_, ?_⟩ <;> decide

/-- C8 (amended): the classification stage makes at most `MAX_ATTEMPTS`
(5) calls and retries only when the LLM call raises; if all 5 calls raise,
the last exception text is surfaced verbatim (with the `❌ 에러 발생:`
prefix) as the failed reply and recorded as a single failed bot chat turn.
A returned text that fails to parse as the expected schema, however, is
not retried: the parse exception escapes the handler unrecorded. -/
theorem C8_classification_retry (msg1 msg2 : PyStr) (env1 env2 : Env)
    (proj1 proj2 : ProjectState)
    (h1 : ∀ i, i < MAX_ATTEMPTS → ∃ e, env1.classifyLLM i = .error e)
    (t e2 : PyStr)
    (h2 : env2.classifyLLM 0 = .ok t)
    (h3 : parseDevide t = .error e2) :
    ((process_code msg1 env1 proj1).classifyCalls = MAX_ATTEMPTS
      ∧ ∃ e, env1.classifyLLM 4 = .error e
        ∧ (process_code msg1 env1 proj1).result = .ok ⟨pys "fail", [], [], errFmt e⟩
        ∧ (process_code msg1 env1 proj1).proj.chat
            = proj1.chat ++ [(Speaker.bot, errFmt e)])
    ∧ ((process_code msg2 env2 proj2).result = .error e2
        ∧ (process_code msg2 env2 proj2).classifyCalls = 1
        ∧ (process_code msg2 env2 proj2).proj = proj2) := by
  constructor
  · obtain ⟨last, e, hlast, hf, hloop⟩ := tryLoop_all_err env1.classifyLLM
      (List.range MAX_ATTEMPTS) [] (by decide)
      (fun i hi => h1 i (List.mem_range.mp hi))
    have hlast4 : last = 4 := by
      have : (List.range MAX_ATTEMPTS).getLast? = some 4 := by decide
      rw [this] at hlast
      exact (Option.some.inj hlast).symm
    subst hlast4
    have hres : (tryLoop env1.classifyLLM (List.range MAX_ATTEMPTS) []).res = none := by
      rw [hloop]
    rw [process_code_classify_fail msg1 env1 proj1 hres, hloop]
    refine ⟨rfl, e, hf, rfl, rfl⟩
  · have hrange : List.range MAX_ATTEMPTS = 0 :: [1, 2, 3, 4] := by decide
    have hloop : tryLoop env2.classifyLLM (List.range MAX_ATTEMPTS) [] = ⟨some t, [], 1⟩ := by
      rw [hrange]
      exact tryLoop_first_ok env2.classifyLLM 0 [1, 2, 3, 4] [] t h2
    have hres : (tryLoop env2.classifyLLM (List.range MAX_ATTEMPTS) []).res = some t := by
      rw [hloop]
    rw [process_code_parse_error msg2 env2 proj2 t e2 hres h3, hloop]
    exact ⟨rfl, rfl, rfl⟩

/-- Environment whose classification call always raises. -/
def envC8b : Env := ⟨fun i => .error ('E' :: Nat.toDigits 10 i), fun _ => .error [],
  fun _ => .error [], fun _ => [], fun _ => imgEnv0, fun _ s => s⟩

/-- C8 witness: both halves of the amended statement at concrete
environments. -/
theorem C8_classification_retry_witness :
    (process_code (pys "w1") envC8b emptyProj).classifyCalls = MAX_ATTEMPTS
    ∧ (process_code (pys "w2") envC8 emptyProj).result = .error (pys "Expecting value") := by
  have h := C8_classification_retry (pys "w1") (pys "w2") envC8b envC8 emptyProj emptyProj
    (fun i _ => ⟨'E' :: Nat.toDigits 10 i, rfl⟩) (pys "notjson") (pys "Expecting value")
    rfl rfl
  exact ⟨h.1.1, h.2.1⟩

/-- C9 (confirmed): when classification parses with no modification
requests and no questions — whatever the disallowed list holds — the
handler returns status `"success"` with empty code and data and a reply
that is the classification summary plus the rejection text plus the fixed
acknowledgement; it makes no generation attempt and no Q&A call, and
leaves the project's files and version store untouched (only the user chat
echo is appended). -/
theorem C9_nothing_actionable (msg : PyStr) (env : Env) (proj : ProjectState)
    (t : PyStr) (dv : Devide)
    (ht : (tryLoop env.classifyLLM (List.range MAX_ATTEMPTS) []).res = some t)
    (hdv : parseDevide t = .ok dv)
    (hm : dv.Modification_Requests = []) (hq : dv.Questions = []) :
    (process_code msg env proj).result
      = .ok ⟨pys "success", [], [],
          devideResult (pyJoinNL dv.Modification_Requests) (pyJoinNL dv.Questions)
              (inappropriateAnswer dv.Inappropriate)
            ++ inappropriateAnswer dv.Inappropriate ++ pys "\n\n무엇을 도와드릴까요?"⟩
    ∧ (process_code msg env proj).genTrace = []
    ∧ (process_code msg env proj).qnaCalls = 0
    ∧ (process_code msg env proj).proj.store = proj.store
    ∧ (process_code msg env proj).proj.code = proj.code
    ∧ (process_code msg env proj).proj.data = proj.data := by
  rw [process_code_nothing msg env proj t dv ht hdv hm hq]
  exact ⟨rfl, rfl, rfl, rfl, rfl, rfl⟩

/-- A classification answer with only a disallowed item. -/
def tDevideInap : PyStr :=
  pys "\x7b\"Modification_Requests\": [], \"Questions\": [], \"Inappropriate\": [\"hack\"]\x7d"

/-- Environment steering a concrete run into the nothing-actionable branch
with a disallowed item present. -/
def envC9 : Env := ⟨fun _ => .ok tDevideInap, fun _ => .error [], fun _ => .error [],
  fun _ => [], fun _ => imgEnv0, fun _ s => s⟩

/-- C9 witness: a concrete only-disallowed run returns success, with no
generation attempt and an unchanged version store. -/
theorem C9_nothing_actionable_witness :
    (process_code (pys "w9") envC9 emptyProj).genTrace = []
    ∧ (process_code (pys "w9") envC9 emptyProj).proj.store = emptyProj.store := by
  have h := C9_nothing_actionable (pys "w9") envC9 emptyProj tDevideInap
    ⟨[], [], [pys "hack"]⟩ (by decide) rfl rfl rfl
  exact ⟨h.2.1, h.2.2.2.1⟩

theorem fsLookup_fsWrite_ne (p q : PyStr) (v : PyStr) (fs : FS) (h : p ≠ q) :
    fsLookup q (fsWrite p v fs) = fsLookup q fs := by
  simp [fsWrite, fsLookup, h]

theorem fsMem_fsWrite_self (p : PyStr) (v : PyStr) (fs : FS) :
    fsMem p (fsWrite p v fs) = true := by
  simp [fsWrite, fsMem, fsLookup]

theorem fsMem_fsWrite_mono (p q : PyStr) (v : PyStr) (fs : FS)
    (h : fsMem q fs = true) : fsMem q (fsWrite p v fs) = true := by
  by_cases hpq : p = q
  · subst hpq; exact fsMem_fsWrite_self p v fs
  · simpa [fsMem, fsLookup_fsWrite_ne p q v fs hpq] using h

theorem imageGenStep_shape (env : ImgEnv) (sp : PyStr) (nameJ : Json)
    (fs : FS) (gens : List Nat) (idx : Nat) :
    (∃ c, imageGenStep env sp nameJ fs gens idx = (fsWrite sp c fs, gens ++ [idx], idx + 1))
    ∨ imageGenStep env sp nameJ fs gens idx = (fs, gens ++ [idx], idx + 1) := by
  cases nameJ with
  | str name =>
    simp only [imageGenStep]
    cases hai : aiTry (env.aiAttempts idx) with
    | some bytes => exact Or.inl ⟨_, rfl⟩
    | none =>
      cases hd : env.dummy idx with
      | some d => exact Or.inl ⟨_, rfl⟩
      | none => exact Or.inr rfl
  | null =>
    simp only [imageGenStep]
    cases hd : env.dummy idx with
    | some d => exact Or.inl ⟨_, rfl⟩
    | none => exact Or.inr rfl
  | bool b =>
    simp only [imageGenStep]
    cases hd : env.dummy idx with
    | some d => exact Or.inl ⟨_, rfl⟩
    | none => exact Or.inr rfl
  | num n =>
    simp only [imageGenStep]
    cases hd : env.dummy idx with
    | some d => exact Or.inl ⟨_, rfl⟩
    | none => exact Or.inr rfl
  | arr xs =>
    simp only [imageGenStep]
    cases hd : env.dummy idx with
    | some d => exact Or.inl ⟨_, rfl⟩
    | none => exact Or.inr rfl
  | obj kvs =>
    simp only [imageGenStep]
    cases hd : env.dummy idx with
    | some d => exact Or.inl ⟨_, rfl⟩
    | none => exact Or.inr rfl

theorem imageGenStep_ai (env : ImgEnv) (sp : PyStr) (name : PyStr)
    (fs : FS) (gens : List Nat) (idx : Nat) (bytes : PyStr)
    (hai : aiTry (env.aiAttempts idx) = some bytes) :
    ∃ c, imageGenStep env sp (Json.str name) fs gens idx
      = (fsWrite sp c fs, gens ++ [idx], idx + 1) := by
  simp only [imageGenStep, hai]
  exact ⟨_, rfl⟩

theorem imageGenStep_dummy (env : ImgEnv) (sp : PyStr) (nameJ : Json)
    (fs : FS) (gens : List Nat) (idx : Nat) (d : PyStr)
    (hai : aiTry (env.aiAttempts idx) = none) (hd : env.dummy idx = some d) :
    imageGenStep env sp nameJ fs gens idx = (fsWrite sp d fs, gens ++ [idx], idx + 1) := by
  cases nameJ with
  | str name => simp only [imageGenStep, hai, hd]
  | null => simp only [imageGenStep, hd]
  | bool b => simp only [imageGenStep, hd]
  | num n => simp only [imageGenStep, hd]
  | arr xs => simp only [imageGenStep, hd]
  | obj kvs => simp only [imageGenStep, hd]

theorem imageItemStep_skip (env : ImgEnv) (td : PyStr) (fs : FS) (gens : List Nat)
    (idx : Nat) (kvs : List (PyStr × Json)) (fp : PyStr)
    (hpth : (assocLookup (pys "path") kvs).getD (.str []) = .str fp)
    (hex : ((basename fp).isEmpty || fsMem (pathJoin td (basename fp)) fs) = true) :
    imageItemStep env td (fs, gens, idx) (Json.obj kvs) = .ok (fs, gens, idx + 1) := by
  simp only [imageItemStep, hpth]
  rw [if_pos hex]

theorem imageItemStep_gen (env : ImgEnv) (td : PyStr) (fs : FS) (gens : List Nat)
    (idx : Nat) (kvs : List (PyStr × Json)) (fp : PyStr)
    (hpth : (assocLookup (pys "path") kvs).getD (.str []) = .str fp)
    (hex : ((basename fp).isEmpty || fsMem (pathJoin td (basename fp)) fs) = false) :
    imageItemStep env td (fs, gens, idx) (Json.obj kvs)
      = .ok (imageGenStep env (pathJoin td (basename fp))
          ((assocLookup (pys "name") kvs).getD (.str (pys "unknown"))) fs gens idx) := by
  simp only [imageItemStep, hpth]
  rw [if_neg (by simp [hex])]

theorem imagesFold_invariant (env : ImgEnv) (td : PyStr) :
    ∀ (items : List Json) (fs : FS) (gens : List Nat) (idx : Nat),
    (∀ p, fsMem p fs = true →
        fsLookup p (imagesFold env td items fs gens idx).2.1 = fsLookup p fs)
    ∧ (∀ p, fsMem p fs = true →
        fsMem p (imagesFold env td items fs gens idx).2.1 = true) := by
  intro items
  induction items with
  | nil =>
    intro fs gens idx
    exact ⟨fun p _ => rfl, fun p h => h⟩
  | cons item rest ih =>
    intro fs gens idx
    by_cases hobj : ∃ kvs, item = Json.obj kvs
    · obtain ⟨kvs, rfl⟩ := hobj
      cases hpth : (assocLookup (pys "path") kvs).getD (.str []) with
      | str fp =>
        by_cases hex : ((basename fp).isEmpty || fsMem (pathJoin td (basename fp)) fs) = true
        · have hstep := imageItemStep_skip env td fs gens idx kvs fp hpth hex
          have hfold : imagesFold env td (Json.obj kvs :: rest) fs gens idx
              = imagesFold env td rest fs gens (idx + 1) := by
            simp only [imagesFold, hstep]
          rw [hfold]
          exact ih fs gens (idx + 1)
        · have hex' : ((basename fp).isEmpty || fsMem (pathJoin td (basename fp)) fs) = false := by
            revert hex
            cases (basename fp).isEmpty || fsMem (pathJoin td (basename fp)) fs <;> simp
          have hmem' : fsMem (pathJoin td (basename fp)) fs = false := by
            revert hex'
            cases hb : (basename fp).isEmpty <;>
              cases hm : fsMem (pathJoin td (basename fp)) fs <;> simp
          have hstep := imageItemStep_gen env td fs gens idx kvs fp hpth hex'
          rcases imageGenStep_shape env (pathJoin td (basename fp))
              ((assocLookup (pys "name") kvs).getD (.str (pys "unknown"))) fs gens idx with
            ⟨c, hg⟩ | hg
          · rw [hg] at hstep
            have hfold : imagesFold env td (Json.obj kvs :: rest) fs gens idx
                = imagesFold env td rest (fsWrite (pathJoin td (basename fp)) c fs)
                    (gens ++ [idx]) (idx + 1) := by
              simp only [imagesFold, hstep]
            rw [hfold]
            obtain ⟨ih1, ih2⟩ :=
              ih (fsWrite (pathJoin td (basename fp)) c fs) (gens ++ [idx]) (idx + 1)
            refine ⟨fun p hp => ?_, fun p hp => ?_⟩
            · have hne : pathJoin td (basename fp) ≠ p := by
                intro he; rw [he] at hmem'; rw [hmem'] at hp; cases hp
              have hp' : fsMem p (fsWrite (pathJoin td (basename fp)) c fs) = true :=
                fsMem_fsWrite_mono _ _ _ _ hp
              rw [ih1 p hp', fsLookup_fsWrite_ne _ _ _ _ hne]
            · exact ih2 p (fsMem_fsWrite_mono _ _ _ _ hp)
          · rw [hg] at hstep
            have hfold : imagesFold env td (Json.obj kvs :: rest) fs gens idx
                = imagesFold env td rest fs (gens ++ [idx]) (idx + 1) := by
              simp only [imagesFold, hstep]
            rw [hfold]
            exact ih fs (gens ++ [idx]) (idx + 1)
      | null =>
        have hstep : imageItemStep env td (fs, gens, idx) (Json.obj kvs)
            = .error (pys "TypeError: str expected") := by simp only [imageItemStep, hpth]
        have hfold : imagesFold env td (Json.obj kvs :: rest) fs gens idx
            = (.error (pys "TypeError: str expected"), fs, gens) := by
          simp only [imagesFold, hstep]
        rw [hfold]
        exact ⟨fun p _ => rfl, fun p h => h⟩
      | bool b =>
        have hstep : imageItemStep env td (fs, gens, idx) (Json.obj kvs)
            = .error (pys "TypeError: str expected") := by simp only [imageItemStep, hpth]
        have hfold : imagesFold env td (Json.obj kvs :: rest) fs gens idx
            = (.error (pys "TypeError: str expected"), fs, gens) := by
          simp only [imagesFold, hstep]
        rw [hfold]
        exact ⟨fun p _ => rfl, fun p h => h⟩
      | num n =>
        have hstep : imageItemStep env td (fs, gens, idx) (Json.obj kvs)
            = .error (pys "TypeError: str expected") := by simp only [imageItemStep, hpth]
        have hfold : imagesFold env td (Json.obj kvs :: rest) fs gens idx
            = (.error (pys "TypeError: str expected"), fs, gens) := by
          simp only [imagesFold, hstep]
        rw [hfold]
        exact ⟨fun p _ => rfl, fun p h => h⟩
      | arr xs =>
        have hstep : imageItemStep env td (fs, gens, idx) (Json.obj kvs)
            = .error (pys "TypeError: str expected") := by simp only [imageItemStep, hpth]
        have hfold : imagesFold env td (Json.obj kvs :: rest) fs gens idx
            = (.error (pys "TypeError: str expected"), fs, gens) := by
          simp only [imagesFold, hstep]
        rw [hfold]
        exact ⟨fun p _ => rfl, fun p h => h⟩
      | obj kvs2 =>
        have hstep : imageItemStep env td (fs, gens, idx) (Json.obj kvs)
            = .error (pys "TypeError: str expected") := by simp only [imageItemStep, hpth]
        have hfold : imagesFold env td (Json.obj kvs :: rest) fs gens idx
            = (.error (pys "TypeError: str expected"), fs, gens) := by
          simp only [imagesFold, hstep]
        rw [hfold]
        exact ⟨fun p _ => rfl, fun p h => h⟩
    · push_neg at hobj
      have hstep := imageItemStep_not_obj env td (fs, gens, idx) item hobj
      have hfold : imagesFold env td (item :: rest) fs gens idx
          = (.error (pys "AttributeError: get"), fs, gens) := by
        simp only [imagesFold, hstep]
      rw [hfold]
      exact ⟨fun p _ => rfl, fun p h => h⟩

/-- Concrete game data for the image-materialisation counterexample: one
image entry whose target file is absent. -/
def dataC10f : Json :=
  Json.obj [(pys "assets", Json.obj [(pys "images", Json.arr
    [Json.obj [(pys "name", Json.str (pys "bg_sky")),
               (pys "path", Json.str (pys "assets/sky.png"))]])])]

/-- An image environment in which every AI attempt fails and
`create_dummy_image` also fails (its internal `except` swallows a PIL
error), so generation writes nothing. -/
def envC10f : ImgEnv :=
  ⟨fun _ => [none, none, none], true, fun _ _ => none, fun _ => none⟩

/-- C10 counterexample: with every AI attempt failing and
`create_dummy_image`'s internal `try` swallowing a PIL failure (lines
148-149 of `make_dummy_image_asset.py`), the run returns normally and
generation was attempted for the absent entry (ghost index 0), yet no file
exists at the target path afterwards — refuting "for those a file is
written at the target path on both the AI-success and AI-failure paths". -/
theorem C10_counterexample :
    ((check_and_create_images_with_text dataC10f (pys "G") envC10f []).1).isOk = true
    ∧ (check_and_create_images_with_text dataC10f (pys "G") envC10f []).2.2 = [0]
    ∧ fsMem (pys "G/assets/sky.png")
        (check_and_create_images_with_text dataC10f (pys "G") envC10f []).2.1 = false := by
  refine ⟨?_, ?_, ?_⟩ <;> decide

/-- Concrete game data for the no-overwrite scenario: two image entries,
hero and bg_sky, both under assets/. -/
def dataC10 : Json :=
  Json.obj [(pys "assets", Json.obj [(pys "images", Json.arr
    [Json.obj [(pys "name", Json.str (pys "hero")),
               (pys "path", Json.str (pys "assets/hero.png"))],
     Json.obj [(pys "name", Json.str (pys "bg_sky")),
               (pys "path", Json.str (pys "assets/sky.png"))]])])]

/-- An image environment in which every AI attempt fails and the dummy
fallback succeeds. -/
def envC10 : ImgEnv :=
  ⟨fun _ => [none, none, none], true, fun _ _ => none, fun _ => some (pys "DUMMY")⟩

/-- A file system on which the hero image already exists. -/
def fsC10 : FS := [(pys "G/assets/hero.png", pys "OLD")]

/-- **C10.** (amended) Asset image materialisation never overwrites: after
`check_and_create_images_with_text`, every file that existed before the
call still has its old content.  Per loop iteration, for a dict entry with
a string `path`: if the target save path already exists (including the
empty-basename case, whose target is the existing directory itself) the
entry is skipped exactly — file system and ghost generation list
unchanged; if the target is absent, generation is attempted (the ghost
list grows by this entry's index) and the file system either gains a file
at exactly the target path or — when every AI attempt fails and
`create_dummy_image`'s internal `except` swallows a PIL failure — is left
unchanged.  A file is guaranteed at the target when an AI attempt
succeeds (string name), and on the AI-failure path exactly when the dummy
creation succeeds.  (A non-string `path` raises `TypeError` before the
existence check with nothing written; the counterexample shows the
AI-failure path may write nothing.) -/
theorem C10_no_overwrite_generation_gated (data : Json) (base : PyStr)
    (env : ImgEnv) (fs : FS) :
    (∀ p, fsMem p fs = true →
        fsLookup p (check_and_create_images_with_text data base env fs).2.1
          = fsLookup p fs)
    ∧ (∀ td fs2 gens idx kvs fp,
        (assocLookup (pys "path") kvs).getD (.str []) = .str fp →
        ((basename fp).isEmpty || fsMem (pathJoin td (basename fp)) fs2) = true →
        imageItemStep env td (fs2, gens, idx) (Json.obj kvs)
          = .ok (fs2, gens, idx + 1))
    ∧ (∀ td fs2 gens idx kvs fp,
        (assocLookup (pys "path") kvs).getD (.str []) = .str fp →
        ((basename fp).isEmpty || fsMem (pathJoin td (basename fp)) fs2) = false →
        ∃ fs3, imageItemStep env td (fs2, gens, idx) (Json.obj kvs)
            = .ok (fs3, gens ++ [idx], idx + 1)
          ∧ ((∃ c, fs3 = fsWrite (pathJoin td (basename fp)) c fs2) ∨ fs3 = fs2))
    ∧ (∀ td fs2 gens idx kvs fp nm bytes,
        (assocLookup (pys "path") kvs).getD (.str []) = .str fp →
        (assocLookup (pys "name") kvs).getD (.str (pys "unknown")) = .str nm →
        ((basename fp).isEmpty || fsMem (pathJoin td (basename fp)) fs2) = false →
        aiTry (env.aiAttempts idx) = some bytes →
        ∃ c, imageItemStep env td (fs2, gens, idx) (Json.obj kvs)
            = .ok (fsWrite (pathJoin td (basename fp)) c fs2, gens ++ [idx], idx + 1))
    ∧ (∀ td fs2 gens idx kvs fp d,
        (assocLookup (pys "path") kvs).getD (.str []) = .str fp →
        ((basename fp).isEmpty || fsMem (pathJoin td (basename fp)) fs2) = false →
        aiTry (env.aiAttempts idx) = none →
        env.dummy idx = some d →
        imageItemStep env td (fs2, gens, idx) (Json.obj kvs)
          = .ok (fsWrite (pathJoin td (basename fp)) d fs2, gens ++ [idx], idx + 1)) := by
  refine ⟨?_, ?_, ?_, ?_, ?_⟩
  · intro p hp
    cases hI : imagesOfData data with
    | error e => simp [check_and_create_images_with_text, hI]
    | ok items =>
      cases items with
      | nil => simp [check_and_create_images_with_text, hI]
      | cons first rest =>
        cases first with
        | obj firstKvs =>
          cases hp2 : (assocLookup (pys "path") firstKvs).getD (.str []) with
          | str fp =>
            have h := (imagesFold_invariant env (pathJoin base (dirname fp))
              (Json.obj firstKvs :: rest) fs [] 0).1 p hp
            simpa [check_and_create_images_with_text, hI, hp2] using h
          | null => simp [check_and_create_images_with_text, hI, hp2]
          | bool b => simp [check_and_create_images_with_text, hI, hp2]
          | num n => simp [check_and_create_images_with_text, hI, hp2]
          | arr xs => simp [check_and_create_images_with_text, hI, hp2]
          | obj kvs2 => simp [check_and_create_images_with_text, hI, hp2]
        | null => simp [check_and_create_images_with_text, hI]
        | bool b => simp [check_and_create_images_with_text, hI]
        | num n => simp [check_and_create_images_with_text, hI]
        | str s => simp [check_and_create_images_with_text, hI]
        | arr xs => simp [check_and_create_images_with_text, hI]
  · intro td fs2 gens idx kvs fp hpth hex
    exact imageItemStep_skip env td fs2 gens idx kvs fp hpth hex
  · intro td fs2 gens idx kvs fp hpth hex
    rw [imageItemStep_gen env td fs2 gens idx kvs fp hpth hex]
    rcases imageGenStep_shape env (pathJoin td (basename fp))
        ((assocLookup (pys "name") kvs).getD (.str (pys "unknown"))) fs2 gens idx with
      ⟨c, hg⟩ | hg
    · exact ⟨_, by rw [hg], Or.inl ⟨c, rfl⟩⟩
    · exact ⟨_, by rw [hg], Or.inr rfl⟩
  · intro td fs2 gens idx kvs fp nm bytes hpth hnm hex hai
    rw [imageItemStep_gen env td fs2 gens idx kvs fp hpth hex, hnm]
    obtain ⟨c, hg⟩ := imageGenStep_ai env (pathJoin td (basename fp)) nm fs2 gens idx bytes hai
    exact ⟨c, by rw [hg]⟩
  · intro td fs2 gens idx kvs fp d hpth hex hai hd
    rw [imageItemStep_gen env td fs2 gens idx kvs fp hpth hex]
    rw [imageGenStep_dummy env (pathJoin td (basename fp))
      ((assocLookup (pys "name") kvs).getD (.str (pys "unknown"))) fs2 gens idx d hai hd]

/-- C10 witness: the amended statement at concrete inputs — the
pre-existing hero image keeps its content through a full run, and a
concrete absent-target step with failing AI and succeeding dummy writes
the dummy at the target path. -/
theorem C10_no_overwrite_generation_gated_witness :
    fsLookup (pys "G/assets/hero.png")
        (check_and_create_images_with_text dataC10 (pys "G") envC10 fsC10).2.1
      = some (pys "OLD")
    ∧ imageItemStep envC10 (pys "G/assets") ([], [], 0)
        (Json.obj [(pys "name", Json.str (pys "hero")),
                   (pys "path", Json.str (pys "assets/hero.png"))])
      = .ok ([(pys "G/assets/hero.png", pys "DUMMY")], [0], 1) := by
  have h := C10_no_overwrite_generation_gated dataC10 (pys "G") envC10 fsC10
  constructor
  · have h1 := h.1 (pys "G/assets/hero.png") (by decide)
    rw [h1]
    rfl
  · have h5 := h.2.2.2.2 (pys "G/assets") [] [] 0
      [(pys "name", Json.str (pys "hero")), (pys "path", Json.str (pys "assets/hero.png"))]
      (pys "assets/hero.png") (pys "DUMMY") rfl (by decide) rfl rfl
    rw [h5]
    rfl
